import Mathlib

/-!
Shallow embedding of the `metapiston` schema/URL layer
(`src/metapiston/minecraft/`).

The repository defines pydantic v2 models:
  * `LauncherModel` (`_model.py`): `extra="forbid"`, `frozen=True`,
    `alias_generator=to_camel` — strict validation, camelCase wire keys.
  * `VersionManifestV1` / `VersionManifestV2` (`version_manifests/`),
  * `ClientV1` (`clients/client_v1.py`) with its nested sub-models,
  * pure URL builders (`urls.py`).

Embedding choices, stated once here:
  * JSON documents are modelled by the inductive `JValue`; objects are
    ordered key/value lists, as produced by a JSON parser.
  * `parse` for a model validates a `JValue` exactly as pydantic does at
    the success/failure level: unknown keys are rejected (`extra="forbid"`),
    required keys must be present, `Optional[...] = None` fields may be
    absent or `null`, `Optional[...]` fields without a default must be
    present but may be `null`.  Error *messages* are not modelled beyond a
    string; pydantic collects all errors while this embedding stops at the
    first, which is equivalent at the ok/error level.
  * `datetime` and URL-typed fields (`AnyUrl`) are modelled as strings:
    their inner syntactic validation/normalisation is orthogonal to every
    property proved below.
  * JSON numbers are modelled as `Int`; every numeric field of the
    repository is an `int` field.
  * serialisation (`model_dump_json`) is modelled structurally as a
    `JValue`-producing function with the two options that matter here:
    `by_alias` (external camelCase names) and `exclude_none`
    (omit fields whose value is `None`).
-/

namespace Metapiston

/-- JSON values; objects keep their key order, as a JSON parser yields them. -/
inductive JValue where
  | null : JValue
  | bool (b : Bool) : JValue
  | num (n : Int) : JValue
  | str (s : String) : JValue
  | arr (elems : List JValue) : JValue
  | obj (fields : List (String × JValue)) : JValue

/-- Validation failure (pydantic `ValidationError`); only the message text. -/
abbrev SchemaViolation := String

/-- Result of `parse`/validation. -/
abbrev Parse (α : Type) := Except SchemaViolation α

/-- Is the parse result an error? -/
def isErr {α : Type} : Parse α → Bool
  | .error _ => true
  | .ok _ => false

/-- First binding of a key in a JSON object, like a `dict` lookup. -/
def lookupField (fs : List (String × JValue)) (k : String) : Option JValue :=
  match fs.find? (fun p => p.1 == k) with
  | some p => some p.2
  | none => none

/-- The keys of a JSON object value (empty for non-objects). -/
def jKeys : JValue → List String
  | .obj fs => fs.map (fun p => p.1)
  | _ => []

/-- pydantic `extra="forbid"`: every key of the input must be declared. -/
def checkStrict (fs : List (String × JValue)) (declared : List String) : Parse Unit :=
  if fs.all (fun p => declared.contains p.1) then pure () else
    .error "extra fields not permitted"

/-- A required field's raw value. -/
def reqField (fs : List (String × JValue)) (k : String) : Parse JValue :=
  match lookupField fs k with
  | some v => pure v
  | none => .error (k ++ ": field required")

/-- Parse a required field with the given sub-parser. -/
def reqParse {α : Type} (fs : List (String × JValue)) (k : String)
    (p : JValue → Parse α) : Parse α := do
  p (← reqField fs k)

/-- A nullable value: `null` parses to `none`, anything else through `p`. -/
def parseNullable {α : Type} (p : JValue → Parse α) : JValue → Parse (Option α)
  | .null => pure none
  | v => do pure (some (← p v))

/-- An `Optional[...] = None` field: may be absent or `null`. -/
def optField {α : Type} (fs : List (String × JValue)) (k : String)
    (p : JValue → Parse α) : Parse (Option α) :=
  match lookupField fs k with
  | none => pure none
  | some v => parseNullable p v

/-- An `Optional[...]` field without a default (pydantic v2: required,
nullable): the key must be present, but its value may be `null`. -/
def reqNullable {α : Type} (fs : List (String × JValue)) (k : String)
    (p : JValue → Parse α) : Parse (Option α) :=
  match lookupField fs k with
  | none => .error (k ++ ": field required")
  | some v => parseNullable p v

/-- A `str` field. -/
def asStr : JValue → Parse String
  | .str s => pure s
  | _ => .error "string expected"

/-- An `int` field.  No sign or range constraint: pydantic `int` is ℤ. -/
def asInt : JValue → Parse Int
  | .num n => pure n
  | _ => .error "int expected"

/-- A `bool` field. -/
def asBool : JValue → Parse Bool
  | .bool b => pure b
  | _ => .error "bool expected"

/-- Parsing of `datetime` fields: ISO-8601 syntax abstracted away (see header). -/
def asDatetime : JValue → Parse String := asStr

/-- Parsing of `AnyUrl`/`AnyHttpUrl` fields: URL syntax abstracted away (see header). -/
def asUrl : JValue → Parse String := asStr

/-- A `list[T]` field. -/
def asList {α : Type} (p : JValue → Parse α) : JValue → Parse (List α)
  | .arr xs => xs.mapM p
  | _ => .error "list expected"

/-- A `dict[str, T]` field, kept in key order. -/
def asStrMap {α : Type} (p : JValue → Parse α) : JValue → Parse (List (String × α))
  | .obj fs => fs.mapM (fun kv => do pure (kv.1, ← p kv.2))
  | _ => .error "object expected"

/-- Split a character list on `'_'` (the grouping behind `str.split("_")`). -/
def splitUnderscore : List Char → List (List Char)
  | [] => [[]]
  | c :: cs =>
      match splitUnderscore cs with
      | [] => [[]]
      | g :: gs => if c = '_' then [] :: g :: gs else (c :: g) :: gs

/-- Capitalise the first character of a token (`str.capitalize` on the
lowercase snake_case tokens this is applied to). -/
def capToken : List Char → List Char
  | [] => []
  | c :: cs => c.toUpper :: cs

/-- Model of `pydantic.alias_generators.to_camel`: split the internal snake_case name
on underscores, capitalise every token but the first, concatenate. -/
def to_camel (s : String) : String :=
  match splitUnderscore s.data with
  | [] => s
  | h :: t => ⟨h ++ (t.map capToken).flatten⟩

/-- Serialisation of one optional field: with `exclude_none` the entry is
dropped when the value is unset, otherwise an explicit `null` is emitted. -/
def optEntry (excludeNone : Bool) (k : String) (v : Option JValue) :
    List (String × JValue) :=
  if excludeNone && v.isNone then [] else [(k, v.getD .null)]

/-! ## URL builders (`urls.py`) -/

/-- Model of `package_url(hash, file, api_version=1)` (default `api_version = 1`). -/
def package_url (hash : String) (file : String) (api_version : Int) : String :=
  "https://piston-meta.mojang.com/v" ++ toString api_version ++ "/packages/"
    ++ hash ++ "/" ++ file

/-- Model of `resource_url(hash)`; `hash[:2]` is `String.take 2`, which returns the
whole string when it is shorter than two characters, exactly like the
Python slice. -/
def resource_url (hash : String) : String :=
  "https://resources.download.minecraft.net/" ++ hash.take 2 ++ "/" ++ hash

/-- Model of `version_manifest_url(file_version=2)` (default `file_version = 2`). -/
def version_manifest_url (file_version : Int) : String :=
  let version := if file_version = 1 then "" else "_v" ++ toString file_version
  "https://piston-meta.mojang.com/mc/game/version_manifest" ++ version ++ ".json"

/-! ## Version manifests (`version_manifests/version_manifest_v1.py`,
`version_manifests/version_manifest_v2.py`)

Both top-level classes and their nested `Latest`/`Version` models use
`alias_generator=to_camel` (directly or through `LauncherModel`), so the
wire keys below are the camelCase aliases of the declared field names. -/

/-- Model of `VersionManifestV1.Latest` / `VersionManifestV2.Latest`. -/
structure Latest where
  release : String
  snapshot : String
deriving DecidableEq

def Latest.names : List String := ["release", "snapshot"]

def Latest.keys : List String := ["release", "snapshot"]

def Latest.parse (j : JValue) : Parse Latest :=
  match j with
  | .obj fs => do
      checkStrict fs Latest.keys
      let release ← reqParse fs "release" asStr
      let snapshot ← reqParse fs "snapshot" asStr
      pure { release, snapshot }
  | _ => .error "object expected"

def Latest.toJson (_byAlias _excludeNone : Bool) (t : Latest) : JValue :=
  .obj [("release", .str t.release), ("snapshot", .str t.snapshot)]

namespace VersionManifestV1

/-- Model of `VersionManifestV1.Version`: id, type, url, time, release_time. -/
structure Version where
  id : String
  type : String
  url : String
  time : String
  release_time : String
deriving DecidableEq

def Version.names : List String := ["id", "type", "url", "time", "release_time"]

def Version.keys : List String := ["id", "type", "url", "time", "releaseTime"]

def Version.parse (j : JValue) : Parse Version :=
  match j with
  | .obj fs => do
      checkStrict fs Version.keys
      let id ← reqParse fs "id" asStr
      let type ← reqParse fs "type" asStr
      let url ← reqParse fs "url" asUrl
      let time ← reqParse fs "time" asDatetime
      let release_time ← reqParse fs "releaseTime" asDatetime
      pure { id, type, url, time, release_time }
  | _ => .error "object expected"

def Version.toJson (byAlias _excludeNone : Bool) (t : Version) : JValue :=
  .obj [("id", .str t.id), ("type", .str t.type), ("url", .str t.url),
        ("time", .str t.time),
        ((if byAlias then "releaseTime" else "release_time"), .str t.release_time)]

end VersionManifestV1

/-- Model of `VersionManifestV1`: latest + ordered version list. -/
structure VersionManifestV1 where
  latest : Latest
  versions : List VersionManifestV1.Version
deriving DecidableEq

def VersionManifestV1.names : List String := ["latest", "versions"]

def VersionManifestV1.keys : List String := ["latest", "versions"]

def VersionManifestV1.parse (j : JValue) : Parse VersionManifestV1 :=
  match j with
  | .obj fs => do
      checkStrict fs VersionManifestV1.keys
      let latest ← reqParse fs "latest" Latest.parse
      let versions ← reqParse fs "versions" (asList Version.parse)
      pure { latest, versions }
  | _ => .error "object expected"

def VersionManifestV1.toJson (byAlias excludeNone : Bool) (t : VersionManifestV1) : JValue :=
  .obj [("latest", Latest.toJson byAlias excludeNone t.latest),
        ("versions", .arr (t.versions.map (Version.toJson byAlias excludeNone)))]

namespace VersionManifestV2

/-- Model of `VersionManifestV2.Version`: the v1 entry fields plus `sha1` and
`compliance_level`. -/
structure Version where
  id : String
  type : String
  url : String
  time : String
  release_time : String
  sha1 : String
  compliance_level : Int
deriving DecidableEq

def Version.names : List String :=
  ["id", "type", "url", "time", "release_time", "sha1", "compliance_level"]

def Version.keys : List String :=
  ["id", "type", "url", "time", "releaseTime", "sha1", "complianceLevel"]

def Version.parse (j : JValue) : Parse Version :=
  match j with
  | .obj fs => do
      checkStrict fs Version.keys
      let id ← reqParse fs "id" asStr
      let type ← reqParse fs "type" asStr
      let url ← reqParse fs "url" asUrl
      let time ← reqParse fs "time" asDatetime
      let release_time ← reqParse fs "releaseTime" asDatetime
      let sha1 ← reqParse fs "sha1" asStr
      let compliance_level ← reqParse fs "complianceLevel" asInt
      pure { id, type, url, time, release_time, sha1, compliance_level }
  | _ => .error "object expected"

def Version.toJson (byAlias _excludeNone : Bool) (t : Version) : JValue :=
  .obj [("id", .str t.id), ("type", .str t.type), ("url", .str t.url),
        ("time", .str t.time),
        ((if byAlias then "releaseTime" else "release_time"), .str t.release_time),
        ("sha1", .str t.sha1),
        ((if byAlias then "complianceLevel" else "compliance_level"),
          .num t.compliance_level)]

end VersionManifestV2

/-- Model of `VersionManifestV2`: latest + ordered version list (v2 entries). -/
structure VersionManifestV2 where
  latest : Latest
  versions : List VersionManifestV2.Version
deriving DecidableEq

def VersionManifestV2.names : List String := ["latest", "versions"]

def VersionManifestV2.keys : List String := ["latest", "versions"]

def VersionManifestV2.parse (j : JValue) : Parse VersionManifestV2 :=
  match j with
  | .obj fs => do
      checkStrict fs VersionManifestV2.keys
      let latest ← reqParse fs "latest" Latest.parse
      let versions ← reqParse fs "versions" (asList Version.parse)
      pure { latest, versions }
  | _ => .error "object expected"

def VersionManifestV2.toJson (byAlias excludeNone : Bool) (t : VersionManifestV2) : JValue :=
  .obj [("latest", Latest.toJson byAlias excludeNone t.latest),
        ("versions", .arr (t.versions.map (Version.toJson byAlias excludeNone)))]

/-! ## Client descriptor (`clients/client_v1.py`)

Every nested model below subclasses `LauncherModel` (strict, frozen,
camelCase aliases) with one exception: `ClientV1.Downloads` subclasses
`BaseModel` directly with `ConfigDict(extra="forbid", frozen=True)` and
*no* alias generator, so its wire keys remain the snake_case field names
(`client_mappings`, `server_mappings`, `windows_server`). -/

/-- The inline union `str | list[str]` used by the `value` field of both
conditional-argument models. -/
inductive StrOrStrList where
  | str (s : String) : StrOrStrList
  | list (xs : List String) : StrOrStrList
deriving DecidableEq

/-- Smart-union validation of `str | list[str]`: a JSON string is a `str`,
a JSON array of strings is a `list[str]`, anything else fails. -/
def StrOrStrList.parse : JValue → Parse StrOrStrList
  | .str s => pure (.str s)
  | .arr xs => do pure (.list (← xs.mapM asStr))
  | _ => .error "str | list[str] expected"

def StrOrStrList.toJson : StrOrStrList → JValue
  | .str s => .str s
  | .list xs => .arr (xs.map JValue.str)

namespace ClientV1

/-- Model of `ClientV1.Arguments.ConditionalGameArgument.Rule`: action + features. -/
structure Arguments.ConditionalGameArgument.Rule where
  action : String
  features : List (String × Bool)
deriving DecidableEq

def Arguments.ConditionalGameArgument.Rule.names : List String := ["action", "features"]

def Arguments.ConditionalGameArgument.Rule.keys : List String := ["action", "features"]

def Arguments.ConditionalGameArgument.Rule.parse (j : JValue) :
    Parse Arguments.ConditionalGameArgument.Rule :=
  match j with
  | .obj fs => do
      checkStrict fs Arguments.ConditionalGameArgument.Rule.keys
      let action ← reqParse fs "action" asStr
      let features ← reqParse fs "features" (asStrMap asBool)
      pure { action, features }
  | _ => .error "object expected"

def Arguments.ConditionalGameArgument.Rule.toJson (_byAlias _excludeNone : Bool)
    (t : Arguments.ConditionalGameArgument.Rule) : JValue :=
  .obj [("action", .str t.action),
        ("features", .obj (t.features.map (fun kv => (kv.1, .bool kv.2))))]

/-- Model of `ClientV1.Arguments.ConditionalGameArgument`: rules + value. -/
structure Arguments.ConditionalGameArgument where
  rules : List Arguments.ConditionalGameArgument.Rule
  value : StrOrStrList
deriving DecidableEq

def Arguments.ConditionalGameArgument.names : List String := ["rules", "value"]

def Arguments.ConditionalGameArgument.keys : List String := ["rules", "value"]

def Arguments.ConditionalGameArgument.parse (j : JValue) :
    Parse Arguments.ConditionalGameArgument :=
  match j with
  | .obj fs => do
      checkStrict fs Arguments.ConditionalGameArgument.keys
      let rules ← reqParse fs "rules" (asList Arguments.ConditionalGameArgument.Rule.parse)
      let value ← reqParse fs "value" StrOrStrList.parse
      pure { rules, value }
  | _ => .error "object expected"

def Arguments.ConditionalGameArgument.toJson (byAlias excludeNone : Bool)
    (t : Arguments.ConditionalGameArgument) : JValue :=
  .obj [("rules", .arr (t.rules.map (Arguments.ConditionalGameArgument.Rule.toJson byAlias excludeNone))),
        ("value", t.value.toJson)]

/-- Model of `ClientV1.Arguments.ConditionalJVMArgument.Rule.OS`: all-optional flags. -/
structure Arguments.ConditionalJVMArgument.Rule.OS where
  name : Option String
  version : Option String
  arch : Option String
deriving DecidableEq

def Arguments.ConditionalJVMArgument.Rule.OS.names : List String := ["name", "version", "arch"]

def Arguments.ConditionalJVMArgument.Rule.OS.keys : List String := ["name", "version", "arch"]

def Arguments.ConditionalJVMArgument.Rule.OS.parse (j : JValue) :
    Parse Arguments.ConditionalJVMArgument.Rule.OS :=
  match j with
  | .obj fs => do
      checkStrict fs Arguments.ConditionalJVMArgument.Rule.OS.keys
      let name ← optField fs "name" asStr
      let version ← optField fs "version" asStr
      let arch ← optField fs "arch" asStr
      pure { name, version, arch }
  | _ => .error "object expected"

def Arguments.ConditionalJVMArgument.Rule.OS.toJson (_byAlias excludeNone : Bool)
    (t : Arguments.ConditionalJVMArgument.Rule.OS) : JValue :=
  .obj (optEntry excludeNone "name" (t.name.map JValue.str)
    ++ optEntry excludeNone "version" (t.version.map JValue.str)
    ++ optEntry excludeNone "arch" (t.arch.map JValue.str))

/-- Model of `ClientV1.Arguments.ConditionalJVMArgument.Rule`: action + os (required). -/
structure Arguments.ConditionalJVMArgument.Rule where
  action : String
  os : Arguments.ConditionalJVMArgument.Rule.OS
deriving DecidableEq

def Arguments.ConditionalJVMArgument.Rule.names : List String := ["action", "os"]

def Arguments.ConditionalJVMArgument.Rule.keys : List String := ["action", "os"]

def Arguments.ConditionalJVMArgument.Rule.parse (j : JValue) :
    Parse Arguments.ConditionalJVMArgument.Rule :=
  match j with
  | .obj fs => do
      checkStrict fs Arguments.ConditionalJVMArgument.Rule.keys
      let action ← reqParse fs "action" asStr
      let os ← reqParse fs "os" Arguments.ConditionalJVMArgument.Rule.OS.parse
      pure { action, os }
  | _ => .error "object expected"

def Arguments.ConditionalJVMArgument.Rule.toJson (byAlias excludeNone : Bool)
    (t : Arguments.ConditionalJVMArgument.Rule) : JValue :=
  .obj [("action", .str t.action),
        ("os", Arguments.ConditionalJVMArgument.Rule.OS.toJson byAlias excludeNone t.os)]

/-- Model of `ClientV1.Arguments.ConditionalJVMArgument`: rules + value. -/
structure Arguments.ConditionalJVMArgument where
  rules : List Arguments.ConditionalJVMArgument.Rule
  value : StrOrStrList
deriving DecidableEq

def Arguments.ConditionalJVMArgument.names : List String := ["rules", "value"]

def Arguments.ConditionalJVMArgument.keys : List String := ["rules", "value"]

def Arguments.ConditionalJVMArgument.parse (j : JValue) :
    Parse Arguments.ConditionalJVMArgument :=
  match j with
  | .obj fs => do
      checkStrict fs Arguments.ConditionalJVMArgument.keys
      let rules ← reqParse fs "rules" (asList Arguments.ConditionalJVMArgument.Rule.parse)
      let value ← reqParse fs "value" StrOrStrList.parse
      pure { rules, value }
  | _ => .error "object expected"

def Arguments.ConditionalJVMArgument.toJson (byAlias excludeNone : Bool)
    (t : Arguments.ConditionalJVMArgument) : JValue :=
  .obj [("rules", .arr (t.rules.map (Arguments.ConditionalJVMArgument.Rule.toJson byAlias excludeNone))),
        ("value", t.value.toJson)]

/-- An element of `Arguments.game`, the union `str | ConditionalGameArgument`. -/
inductive Arguments.GameElem where
  | str (s : String) : Arguments.GameElem
  | cond (c : Arguments.ConditionalGameArgument) : Arguments.GameElem
deriving DecidableEq

/-- Smart-union validation of `str | ConditionalGameArgument`: a bare JSON
string is taken as the `str` alternative without ever being matched against
the conditional-argument shape; a JSON object is validated as a
`ConditionalGameArgument`. -/
def Arguments.GameElem.parse : JValue → Parse Arguments.GameElem
  | .str s => pure (.str s)
  | .obj fs => do pure (.cond (← Arguments.ConditionalGameArgument.parse (.obj fs)))
  | _ => .error "str | ConditionalGameArgument expected"

def Arguments.GameElem.toJson (byAlias excludeNone : Bool) : Arguments.GameElem → JValue
  | .str s => .str s
  | .cond c => Arguments.ConditionalGameArgument.toJson byAlias excludeNone c

/-- An element of `Arguments.jvm`, the union `str | ConditionalJVMArgument`. -/
inductive Arguments.JvmElem where
  | str (s : String) : Arguments.JvmElem
  | cond (c : Arguments.ConditionalJVMArgument) : Arguments.JvmElem
deriving DecidableEq

/-- Smart-union validation of `str | ConditionalJVMArgument` (see
`Arguments.GameElem.parse`). -/
def Arguments.JvmElem.parse : JValue → Parse Arguments.JvmElem
  | .str s => pure (.str s)
  | .obj fs => do pure (.cond (← Arguments.ConditionalJVMArgument.parse (.obj fs)))
  | _ => .error "str | ConditionalJVMArgument expected"

def Arguments.JvmElem.toJson (byAlias excludeNone : Bool) : Arguments.JvmElem → JValue
  | .str s => .str s
  | .cond c => Arguments.ConditionalJVMArgument.toJson byAlias excludeNone c

/-- Model of `ClientV1.Arguments`: game + jvm argument lists. -/
structure Arguments where
  game : List Arguments.GameElem
  jvm : List Arguments.JvmElem
deriving DecidableEq

def Arguments.names : List String := ["game", "jvm"]

def Arguments.keys : List String := ["game", "jvm"]

def Arguments.parse (j : JValue) : Parse Arguments :=
  match j with
  | .obj fs => do
      checkStrict fs Arguments.keys
      let game ← reqParse fs "game" (asList Arguments.GameElem.parse)
      let jvm ← reqParse fs "jvm" (asList Arguments.JvmElem.parse)
      pure { game, jvm }
  | _ => .error "object expected"

def Arguments.toJson (byAlias excludeNone : Bool) (t : Arguments) : JValue :=
  .obj [("game", .arr (t.game.map (Arguments.GameElem.toJson byAlias excludeNone))),
        ("jvm", .arr (t.jvm.map (Arguments.JvmElem.toJson byAlias excludeNone)))]

/-- Model of `ClientV1.AssetIndex`.  `size` and `total_size` are plain `int` fields. -/
structure AssetIndex where
  id : String
  sha1 : String
  size : Int
  total_size : Int
  url : String
deriving DecidableEq

def AssetIndex.names : List String := ["id", "sha1", "size", "total_size", "url"]

def AssetIndex.keys : List String := ["id", "sha1", "size", "totalSize", "url"]

def AssetIndex.parse (j : JValue) : Parse AssetIndex :=
  match j with
  | .obj fs => do
      checkStrict fs AssetIndex.keys
      let id ← reqParse fs "id" asStr
      let sha1 ← reqParse fs "sha1" asStr
      let size ← reqParse fs "size" asInt
      let total_size ← reqParse fs "totalSize" asInt
      let url ← reqParse fs "url" asUrl
      pure { id, sha1, size, total_size, url }
  | _ => .error "object expected"

def AssetIndex.toJson (byAlias _excludeNone : Bool) (t : AssetIndex) : JValue :=
  .obj [("id", .str t.id), ("sha1", .str t.sha1), ("size", .num t.size),
        ((if byAlias then "totalSize" else "total_size"), .num t.total_size),
        ("url", .str t.url)]

/-- Model of `ClientV1.Downloads.Download`: sha1 + size + url. -/
structure Downloads.Download where
  sha1 : String
  size : Int
  url : String
deriving DecidableEq

def Downloads.Download.names : List String := ["sha1", "size", "url"]

def Downloads.Download.keys : List String := ["sha1", "size", "url"]

def Downloads.Download.parse (j : JValue) : Parse Downloads.Download :=
  match j with
  | .obj fs => do
      checkStrict fs Downloads.Download.keys
      let sha1 ← reqParse fs "sha1" asStr
      let size ← reqParse fs "size" asInt
      let url ← reqParse fs "url" asUrl
      pure { sha1, size, url }
  | _ => .error "object expected"

def Downloads.Download.toJson (_byAlias _excludeNone : Bool) (t : Downloads.Download) : JValue :=
  .obj [("sha1", .str t.sha1), ("size", .num t.size), ("url", .str t.url)]

/-- Model of `ClientV1.Downloads`: plain `BaseModel` with
`ConfigDict(extra="forbid", frozen=True)` and *no* `alias_generator`, so
its wire keys are the snake_case field names themselves. -/
structure Downloads where
  client : Downloads.Download
  client_mappings : Option Downloads.Download
  server : Downloads.Download
  server_mappings : Option Downloads.Download
  windows_server : Option Downloads.Download
deriving DecidableEq

def Downloads.names : List String :=
  ["client", "client_mappings", "server", "server_mappings", "windows_server"]

/-- No alias generator on `Downloads`: wire keys equal the field names. -/
def Downloads.keys : List String :=
  ["client", "client_mappings", "server", "server_mappings", "windows_server"]

def Downloads.parse (j : JValue) : Parse Downloads :=
  match j with
  | .obj fs => do
      checkStrict fs Downloads.keys
      let client ← reqParse fs "client" Downloads.Download.parse
      let client_mappings ← optField fs "client_mappings" Downloads.Download.parse
      let server ← reqParse fs "server" Downloads.Download.parse
      let server_mappings ← optField fs "server_mappings" Downloads.Download.parse
      let windows_server ← optField fs "windows_server" Downloads.Download.parse
      pure { client, client_mappings, server, server_mappings, windows_server }
  | _ => .error "object expected"

def Downloads.toJson (byAlias excludeNone : Bool) (t : Downloads) : JValue :=
  .obj ([("client", Downloads.Download.toJson byAlias excludeNone t.client)]
    ++ optEntry excludeNone "client_mappings"
        (t.client_mappings.map (Downloads.Download.toJson byAlias excludeNone))
    ++ [("server", Downloads.Download.toJson byAlias excludeNone t.server)]
    ++ optEntry excludeNone "server_mappings"
        (t.server_mappings.map (Downloads.Download.toJson byAlias excludeNone))
    ++ optEntry excludeNone "windows_server"
        (t.windows_server.map (Downloads.Download.toJson byAlias excludeNone)))

/-- Model of `ClientV1.JavaVersion`. -/
structure JavaVersion where
  component : String
  major_version : Int
deriving DecidableEq

def JavaVersion.names : List String := ["component", "major_version"]

def JavaVersion.keys : List String := ["component", "majorVersion"]

def JavaVersion.parse (j : JValue) : Parse JavaVersion :=
  match j with
  | .obj fs => do
      checkStrict fs JavaVersion.keys
      let component ← reqParse fs "component" asStr
      let major_version ← reqParse fs "majorVersion" asInt
      pure { component, major_version }
  | _ => .error "object expected"

def JavaVersion.toJson (byAlias _excludeNone : Bool) (t : JavaVersion) : JValue :=
  .obj [("component", .str t.component),
        ((if byAlias then "majorVersion" else "major_version"), .num t.major_version)]

/-- Model of `ClientV1.Library.Downloads.Artifact`. -/
structure Library.Downloads.Artifact where
  path : String
  sha1 : String
  size : Int
  url : String
deriving DecidableEq

def Library.Downloads.Artifact.names : List String := ["path", "sha1", "size", "url"]

def Library.Downloads.Artifact.keys : List String := ["path", "sha1", "size", "url"]

def Library.Downloads.Artifact.parse (j : JValue) : Parse Library.Downloads.Artifact :=
  match j with
  | .obj fs => do
      checkStrict fs Library.Downloads.Artifact.keys
      let path ← reqParse fs "path" asStr
      let sha1 ← reqParse fs "sha1" asStr
      let size ← reqParse fs "size" asInt
      let url ← reqParse fs "url" asStr
      pure { path, sha1, size, url }
  | _ => .error "object expected"

def Library.Downloads.Artifact.toJson (_byAlias _excludeNone : Bool)
    (t : Library.Downloads.Artifact) : JValue :=
  .obj [("path", .str t.path), ("sha1", .str t.sha1), ("size", .num t.size),
        ("url", .str t.url)]

/-- Model of `ClientV1.Library.Downloads`: optional artifact and classifier map. -/
structure Library.Downloads where
  artifact : Option Library.Downloads.Artifact
  classifiers : Option (List (String × Library.Downloads.Artifact))
deriving DecidableEq

def Library.Downloads.names : List String := ["artifact", "classifiers"]

def Library.Downloads.keys : List String := ["artifact", "classifiers"]

def Library.Downloads.parse (j : JValue) : Parse Library.Downloads :=
  match j with
  | .obj fs => do
      checkStrict fs Library.Downloads.keys
      let artifact ← optField fs "artifact" Library.Downloads.Artifact.parse
      let classifiers ← optField fs "classifiers" (asStrMap Library.Downloads.Artifact.parse)
      pure { artifact, classifiers }
  | _ => .error "object expected"

def Library.Downloads.toJson (byAlias excludeNone : Bool) (t : Library.Downloads) : JValue :=
  .obj (optEntry excludeNone "artifact"
      (t.artifact.map (Library.Downloads.Artifact.toJson byAlias excludeNone))
    ++ optEntry excludeNone "classifiers"
      (t.classifiers.map (fun cs =>
        .obj (cs.map (fun kv => (kv.1, Library.Downloads.Artifact.toJson byAlias excludeNone kv.2))))))

/-- Model of `ClientV1.Library.Extract`. -/
structure Library.Extract where
  exclude : List String
deriving DecidableEq

def Library.Extract.names : List String := ["exclude"]

def Library.Extract.keys : List String := ["exclude"]

def Library.Extract.parse (j : JValue) : Parse Library.Extract :=
  match j with
  | .obj fs => do
      checkStrict fs Library.Extract.keys
      let exclude ← reqParse fs "exclude" (asList asStr)
      pure { exclude }
  | _ => .error "object expected"

def Library.Extract.toJson (_byAlias _excludeNone : Bool) (t : Library.Extract) : JValue :=
  .obj [("exclude", .arr (t.exclude.map JValue.str))]

/-- Model of `ClientV1.Library.Rule.OS`: all-optional flags. -/
structure Library.Rule.OS where
  name : Option String
  version : Option String
  arch : Option String
deriving DecidableEq

def Library.Rule.OS.names : List String := ["name", "version", "arch"]

def Library.Rule.OS.keys : List String := ["name", "version", "arch"]

def Library.Rule.OS.parse (j : JValue) : Parse Library.Rule.OS :=
  match j with
  | .obj fs => do
      checkStrict fs Library.Rule.OS.keys
      let name ← optField fs "name" asStr
      let version ← optField fs "version" asStr
      let arch ← optField fs "arch" asStr
      pure { name, version, arch }
  | _ => .error "object expected"

def Library.Rule.OS.toJson (_byAlias excludeNone : Bool) (t : Library.Rule.OS) : JValue :=
  .obj (optEntry excludeNone "name" (t.name.map JValue.str)
    ++ optEntry excludeNone "version" (t.version.map JValue.str)
    ++ optEntry excludeNone "arch" (t.arch.map JValue.str))

/-- Model of `ClientV1.Library.Rule`: action + optional os. -/
structure Library.Rule where
  action : String
  os : Option Library.Rule.OS
deriving DecidableEq

def Library.Rule.names : List String := ["action", "os"]

def Library.Rule.keys : List String := ["action", "os"]

def Library.Rule.parse (j : JValue) : Parse Library.Rule :=
  match j with
  | .obj fs => do
      checkStrict fs Library.Rule.keys
      let action ← reqParse fs "action" asStr
      let os ← optField fs "os" Library.Rule.OS.parse
      pure { action, os }
  | _ => .error "object expected"

def Library.Rule.toJson (byAlias excludeNone : Bool) (t : Library.Rule) : JValue :=
  .obj ([("action", .str t.action)]
    ++ optEntry excludeNone "os" (t.os.map (Library.Rule.OS.toJson byAlias excludeNone)))

/-- Model of `ClientV1.Library`. -/
structure Library where
  downloads : Library.Downloads
  name : String
  url : Option String
  natives : Option (List (String × String))
  extract : Option Library.Extract
  rules : Option (List Library.Rule)
deriving DecidableEq

def Library.names : List String :=
  ["downloads", "name", "url", "natives", "extract", "rules"]

def Library.keys : List String :=
  ["downloads", "name", "url", "natives", "extract", "rules"]

def Library.parse (j : JValue) : Parse Library :=
  match j with
  | .obj fs => do
      checkStrict fs Library.keys
      let downloads ← reqParse fs "downloads" Library.Downloads.parse
      let name ← reqParse fs "name" asStr
      let url ← optField fs "url" asUrl
      let natives ← optField fs "natives" (asStrMap asStr)
      let extract ← optField fs "extract" Library.Extract.parse
      let rules ← optField fs "rules" (asList Library.Rule.parse)
      pure { downloads, name, url, natives, extract, rules }
  | _ => .error "object expected"

def Library.toJson (byAlias excludeNone : Bool) (t : Library) : JValue :=
  .obj ([("downloads", Library.Downloads.toJson byAlias excludeNone t.downloads),
         ("name", .str t.name)]
    ++ optEntry excludeNone "url" (t.url.map JValue.str)
    ++ optEntry excludeNone "natives"
        (t.natives.map (fun ns => .obj (ns.map (fun kv => (kv.1, .str kv.2)))))
    ++ optEntry excludeNone "extract"
        (t.extract.map (Library.Extract.toJson byAlias excludeNone))
    ++ optEntry excludeNone "rules"
        (t.rules.map (fun rs => .arr (rs.map (Library.Rule.toJson byAlias excludeNone)))))

/-- Model of `ClientV1.Logging.Client.File`. -/
structure Logging.Client.File where
  id : String
  sha1 : String
  size : Int
  url : String
deriving DecidableEq

def Logging.Client.File.names : List String := ["id", "sha1", "size", "url"]

def Logging.Client.File.keys : List String := ["id", "sha1", "size", "url"]

def Logging.Client.File.parse (j : JValue) : Parse Logging.Client.File :=
  match j with
  | .obj fs => do
      checkStrict fs Logging.Client.File.keys
      let id ← reqParse fs "id" asStr
      let sha1 ← reqParse fs "sha1" asStr
      let size ← reqParse fs "size" asInt
      let url ← reqParse fs "url" asStr
      pure { id, sha1, size, url }
  | _ => .error "object expected"

def Logging.Client.File.toJson (_byAlias _excludeNone : Bool)
    (t : Logging.Client.File) : JValue :=
  .obj [("id", .str t.id), ("sha1", .str t.sha1), ("size", .num t.size),
        ("url", .str t.url)]

/-- Model of `ClientV1.Logging.Client`: argument + file + type. -/
structure Logging.Client where
  argument : String
  file : Logging.Client.File
  type : String
deriving DecidableEq

def Logging.Client.names : List String := ["argument", "file", "type"]

def Logging.Client.keys : List String := ["argument", "file", "type"]

def Logging.Client.parse (j : JValue) : Parse Logging.Client :=
  match j with
  | .obj fs => do
      checkStrict fs Logging.Client.keys
      let argument ← reqParse fs "argument" asStr
      let file ← reqParse fs "file" Logging.Client.File.parse
      let type ← reqParse fs "type" asStr
      pure { argument, file, type }
  | _ => .error "object expected"

def Logging.Client.toJson (byAlias excludeNone : Bool) (t : Logging.Client) : JValue :=
  .obj [("argument", .str t.argument),
        ("file", Logging.Client.File.toJson byAlias excludeNone t.file),
        ("type", .str t.type)]

/-- Model of `ClientV1.Logging`. -/
structure Logging where
  client : Logging.Client
deriving DecidableEq

def Logging.names : List String := ["client"]

def Logging.keys : List String := ["client"]

def Logging.parse (j : JValue) : Parse Logging :=
  match j with
  | .obj fs => do
      checkStrict fs Logging.keys
      let client ← reqParse fs "client" Logging.Client.parse
      pure { client }
  | _ => .error "object expected"

def Logging.toJson (byAlias excludeNone : Bool) (t : Logging) : JValue :=
  .obj [("client", Logging.Client.toJson byAlias excludeNone t.client)]

end ClientV1

/-- Model of `ClientV1` top level.  `arguments` and `minecraft_arguments` default to
`None`; `logging` is `Optional[Logging]` *without* a default and is
therefore required-but-nullable in pydantic v2. -/
structure ClientV1 where
  arguments : Option ClientV1.Arguments
  asset_index : ClientV1.AssetIndex
  assets : String
  compliance_level : Int
  downloads : ClientV1.Downloads
  id : String
  java_version : ClientV1.JavaVersion
  libraries : List ClientV1.Library
  logging : Option ClientV1.Logging
  main_class : String
  minecraft_arguments : Option String
  minimum_launcher_version : Int
  release_time : String
  time : String
  type : String
deriving DecidableEq

def ClientV1.names : List String :=
  ["arguments", "asset_index", "assets", "compliance_level", "downloads", "id",
   "java_version", "libraries", "logging", "main_class", "minecraft_arguments",
   "minimum_launcher_version", "release_time", "time", "type"]

def ClientV1.keys : List String :=
  ["arguments", "assetIndex", "assets", "complianceLevel", "downloads", "id",
   "javaVersion", "libraries", "logging", "mainClass", "minecraftArguments",
   "minimumLauncherVersion", "releaseTime", "time", "type"]

def ClientV1.parse (j : JValue) : Parse ClientV1 :=
  match j with
  | .obj fs => do
      checkStrict fs ClientV1.keys
      let arguments ← optField fs "arguments" ClientV1.Arguments.parse
      let asset_index ← reqParse fs "assetIndex" ClientV1.AssetIndex.parse
      let assets ← reqParse fs "assets" asStr
      let compliance_level ← reqParse fs "complianceLevel" asInt
      let downloads ← reqParse fs "downloads" ClientV1.Downloads.parse
      let id ← reqParse fs "id" asStr
      let java_version ← reqParse fs "javaVersion" ClientV1.JavaVersion.parse
      let libraries ← reqParse fs "libraries" (asList ClientV1.Library.parse)
      let logging ← reqNullable fs "logging" ClientV1.Logging.parse
      let main_class ← reqParse fs "mainClass" asStr
      let minecraft_arguments ← optField fs "minecraftArguments" asStr
      let minimum_launcher_version ← reqParse fs "minimumLauncherVersion" asInt
      let release_time ← reqParse fs "releaseTime" asDatetime
      let time ← reqParse fs "time" asDatetime
      let type ← reqParse fs "type" asStr
      pure { arguments, asset_index, assets, compliance_level, downloads, id,
             java_version, libraries, logging, main_class, minecraft_arguments,
             minimum_launcher_version, release_time, time, type }
  | _ => .error "object expected"

def ClientV1.toJson (byAlias excludeNone : Bool) (t : ClientV1) : JValue :=
  .obj (optEntry excludeNone "arguments"
      (t.arguments.map (ClientV1.Arguments.toJson byAlias excludeNone))
    ++ [((if byAlias then "assetIndex" else "asset_index"),
          ClientV1.AssetIndex.toJson byAlias excludeNone t.asset_index),
        ("assets", .str t.assets),
        ((if byAlias then "complianceLevel" else "compliance_level"),
          .num t.compliance_level),
        ("downloads", ClientV1.Downloads.toJson byAlias excludeNone t.downloads),
        ("id", .str t.id),
        ((if byAlias then "javaVersion" else "java_version"),
          ClientV1.JavaVersion.toJson byAlias excludeNone t.java_version),
        ("libraries", .arr (t.libraries.map (ClientV1.Library.toJson byAlias excludeNone)))]
    ++ optEntry excludeNone "logging"
        (t.logging.map (ClientV1.Logging.toJson byAlias excludeNone))
    ++ [((if byAlias then "mainClass" else "main_class"), .str t.main_class)]
    ++ optEntry excludeNone
        (if byAlias then "minecraftArguments" else "minecraft_arguments")
        (t.minecraft_arguments.map JValue.str)
    ++ [((if byAlias then "minimumLauncherVersion" else "minimum_launcher_version"),
          .num t.minimum_launcher_version),
        ((if byAlias then "releaseTime" else "release_time"), .str t.release_time),
        ("time", .str t.time),
        ("type", .str t.type)])

/-- Model of `ClientV1.model_dump_json` with the overridden defaults of the source
(`by_alias=False`, `exclude_none=True`): the one serialisation deviation
the class makes from pydantic's stock defaults is `exclude_none=True`. -/
def ClientV1.model_dump_json_default (t : ClientV1) : JValue :=
  ClientV1.toJson false true t

/-! ## Shared lemmas -/

theorem isErr_of_ne_ok {α : Type} {e : Parse α} (h : ∀ a, e ≠ .ok a) : isErr e = true := by
  cases e with
  | error _ => rfl
  | ok a => exact absurd rfl (h a)

theorem ok_bind {α β : Type} (a : α) (f : α → Parse β) :
    ((Except.ok a : Parse α) >>= f) = f a := rfl

theorem error_bind {α β : Type} (msg : SchemaViolation) (f : α → Parse β) :
    ((Except.error msg : Parse α) >>= f) = .error msg := rfl

theorem pure_eq_ok {α : Type} (a : α) : (pure a : Parse α) = .ok a := rfl

theorem bind_ok_iff {α β : Type} {e : Parse α} {f : α → Parse β} {b : β} :
    (e >>= f) = .ok b ↔ ∃ a, e = .ok a ∧ f a = .ok b := by
  cases e with
  | error msg => rw [error_bind]; simp
  | ok a => rw [ok_bind]; simp

theorem bind_isErr {α β : Type} {e : Parse α} (f : α → Parse β) (h : isErr e = true) :
    isErr (e >>= f) = true := by
  cases e with
  | error msg => rfl
  | ok a => simp [isErr] at h

/-- An undeclared key makes the strictness check fail. -/
theorem checkStrict_err {fs : List (String × JValue)} {declared : List String}
    (kv : String × JValue) (hmem : kv ∈ fs) (hk : kv.1 ∉ declared) :
    isErr (checkStrict fs declared) = true := by
  unfold checkStrict
  rw [if_neg]
  · rfl
  · intro hall
    rw [List.all_eq_true] at hall
    have := hall kv hmem
    simp only [List.contains_eq_any_beq, List.any_eq_true, beq_iff_eq] at this
    obtain ⟨x, hx, hxe⟩ := this
    exact hk (hxe ▸ hx)

/-- Every element of a list that `mapM` accepts is itself accepted. -/
theorem mapM_ok_mem {α β : Type} {p : α → Parse β} {es : List α}
    {xs : List β} (h : es.mapM p = .ok xs) {e : α} (hmem : e ∈ es) :
    ∃ x, p e = .ok x := by
  induction es generalizing xs with
  | nil => cases hmem
  | cons hd tl ih =>
      rw [List.mapM_cons] at h
      obtain ⟨x, hx, h2⟩ := bind_ok_iff.mp h
      obtain ⟨ys, hys, _⟩ := bind_ok_iff.mp h2
      cases hmem with
      | head => exact ⟨x, hx⟩
      | tail _ hmemtl => exact ih hys hmemtl

/-- A pointwise parse/serialise inverse lifts through `mapM` over `map`. -/
theorem mapM_roundtrip {α : Type} {p : JValue → Parse α} {f : α → JValue}
    (h : ∀ a, p (f a) = .ok a) (xs : List α) :
    (xs.map f).mapM p = .ok xs := by
  induction xs with
  | nil => rfl
  | cons hd tl ih =>
      rw [List.map_cons, List.mapM_cons, h hd, ok_bind, ih, ok_bind]
      rfl

theorem asStrMap_obj {α : Type} (p : JValue → Parse α) (fs : List (String × JValue)) :
    asStrMap p (.obj fs) = fs.mapM (fun kv => do pure (kv.1, ← p kv.2)) := rfl

/-- A pointwise parse/serialise inverse lifts through `asStrMap`. -/
theorem strMap_roundtrip {α : Type} {p : JValue → Parse α} {f : α → JValue}
    (h : ∀ a, p (f a) = .ok a) (xs : List (String × α)) :
    asStrMap p (.obj (xs.map (fun kv => (kv.1, f kv.2)))) = .ok xs := by
  rw [asStrMap_obj]
  induction xs with
  | nil => rfl
  | cons hd tl ih =>
      rw [List.map_cons, List.mapM_cons]
      simp only [h hd.2, ok_bind, Prod.mk.eta]
      rw [ih]
      rfl

/-! ## Parse/serialise inverses (external names, all fields included) -/

theorem parse_toJson_latest (t : Latest) :
    Latest.parse (Latest.toJson true false t) = .ok t := rfl

theorem parse_toJson_vm1_version (t : VersionManifestV1.Version) :
    VersionManifestV1.Version.parse (VersionManifestV1.Version.toJson true false t) = .ok t := rfl

theorem parse_toJson_vm2_version (t : VersionManifestV2.Version) :
    VersionManifestV2.Version.parse (VersionManifestV2.Version.toJson true false t) = .ok t := rfl

theorem parse_toJson_vm1 (t : VersionManifestV1) :
    VersionManifestV1.parse (VersionManifestV1.toJson true false t) = .ok t := by
  obtain ⟨latest, versions⟩ := t
  show ((versions.map (VersionManifestV1.Version.toJson true false)).mapM
      VersionManifestV1.Version.parse >>=
      fun vs => (pure ⟨latest, vs⟩ : Parse VersionManifestV1)) = .ok ⟨latest, versions⟩
  rw [mapM_roundtrip parse_toJson_vm1_version versions, ok_bind]
  rfl

theorem parse_toJson_vm2 (t : VersionManifestV2) :
    VersionManifestV2.parse (VersionManifestV2.toJson true false t) = .ok t := by
  obtain ⟨latest, versions⟩ := t
  show ((versions.map (VersionManifestV2.Version.toJson true false)).mapM
      VersionManifestV2.Version.parse >>=
      fun vs => (pure ⟨latest, vs⟩ : Parse VersionManifestV2)) = .ok ⟨latest, versions⟩
  rw [mapM_roundtrip parse_toJson_vm2_version versions, ok_bind]
  rfl

theorem parse_toJson_download (t : ClientV1.Downloads.Download) :
    ClientV1.Downloads.Download.parse (ClientV1.Downloads.Download.toJson true false t)
      = .ok t := rfl

theorem parse_toJson_asset_index (t : ClientV1.AssetIndex) :
    ClientV1.AssetIndex.parse (ClientV1.AssetIndex.toJson true false t) = .ok t := rfl

theorem parse_toJson_java_version (t : ClientV1.JavaVersion) :
    ClientV1.JavaVersion.parse (ClientV1.JavaVersion.toJson true false t) = .ok t := rfl

theorem parse_toJson_artifact
    (t : ClientV1.Library.Downloads.Artifact) :
    ClientV1.Library.Downloads.Artifact.parse
      (ClientV1.Library.Downloads.Artifact.toJson true false t) = .ok t := rfl

theorem parse_toJson_log_file (t : ClientV1.Logging.Client.File) :
    ClientV1.Logging.Client.File.parse (ClientV1.Logging.Client.File.toJson true false t)
      = .ok t := rfl

theorem parse_toJson_log_client (t : ClientV1.Logging.Client) :
    ClientV1.Logging.Client.parse (ClientV1.Logging.Client.toJson true false t)
      = .ok t := rfl

theorem parse_toJson_logging (t : ClientV1.Logging) :
    ClientV1.Logging.parse (ClientV1.Logging.toJson true false t) = .ok t := rfl

/-- Nullable string round-trip, as produced for unset/set `Optional[str]`. -/
theorem parseNullable_str (v : Option String) :
    parseNullable asStr ((v.map JValue.str).getD .null) = .ok v := by
  cases v <;> rfl

theorem parse_toJson_str_or_list (t : StrOrStrList) :
    StrOrStrList.parse t.toJson = .ok t := by
  cases t with
  | str s => rfl
  | list xs =>
      show ((xs.map JValue.str).mapM asStr >>= fun ys =>
        (pure (StrOrStrList.list ys) : Parse StrOrStrList)) = .ok (StrOrStrList.list xs)
      rw [@mapM_roundtrip String asStr JValue.str (fun s => rfl) xs, ok_bind]
      rfl

theorem parse_toJson_game_rule
    (t : ClientV1.Arguments.ConditionalGameArgument.Rule) :
    ClientV1.Arguments.ConditionalGameArgument.Rule.parse
      (ClientV1.Arguments.ConditionalGameArgument.Rule.toJson true false t) = .ok t := by
  obtain ⟨action, features⟩ := t
  show (asStrMap asBool (.obj (features.map (fun kv => (kv.1, .bool kv.2)))) >>=
      fun fts => (pure ⟨action, fts⟩ :
        Parse ClientV1.Arguments.ConditionalGameArgument.Rule)) = .ok ⟨action, features⟩
  rw [@strMap_roundtrip _ asBool JValue.bool (fun b => rfl) features, ok_bind]
  rfl

theorem parse_toJson_game_cond
    (t : ClientV1.Arguments.ConditionalGameArgument) :
    ClientV1.Arguments.ConditionalGameArgument.parse
      (ClientV1.Arguments.ConditionalGameArgument.toJson true false t) = .ok t := by
  obtain ⟨rules, value⟩ := t
  show ((rules.map (ClientV1.Arguments.ConditionalGameArgument.Rule.toJson true false)).mapM
      ClientV1.Arguments.ConditionalGameArgument.Rule.parse >>= fun rs =>
    StrOrStrList.parse value.toJson >>= fun v =>
      (pure ⟨rs, v⟩ : Parse ClientV1.Arguments.ConditionalGameArgument)) = .ok ⟨rules, value⟩
  rw [mapM_roundtrip parse_toJson_game_rule rules,
    ok_bind, parse_toJson_str_or_list value, ok_bind]
  rfl

theorem parse_toJson_jvm_os
    (t : ClientV1.Arguments.ConditionalJVMArgument.Rule.OS) :
    ClientV1.Arguments.ConditionalJVMArgument.Rule.OS.parse
      (ClientV1.Arguments.ConditionalJVMArgument.Rule.OS.toJson true false t) = .ok t := by
  obtain ⟨name, version, arch⟩ := t
  show (parseNullable asStr ((name.map JValue.str).getD .null) >>= fun n =>
    parseNullable asStr ((version.map JValue.str).getD .null) >>= fun ve =>
    parseNullable asStr ((arch.map JValue.str).getD .null) >>= fun a =>
      (pure ⟨n, ve, a⟩ : Parse ClientV1.Arguments.ConditionalJVMArgument.Rule.OS))
      = .ok ⟨name, version, arch⟩
  rw [parseNullable_str name, ok_bind, parseNullable_str version, ok_bind,
    parseNullable_str arch, ok_bind]
  rfl

theorem parse_toJson_jvm_rule
    (t : ClientV1.Arguments.ConditionalJVMArgument.Rule) :
    ClientV1.Arguments.ConditionalJVMArgument.Rule.parse
      (ClientV1.Arguments.ConditionalJVMArgument.Rule.toJson true false t) = .ok t := by
  obtain ⟨action, os⟩ := t
  show (ClientV1.Arguments.ConditionalJVMArgument.Rule.OS.parse
      (ClientV1.Arguments.ConditionalJVMArgument.Rule.OS.toJson true false os) >>= fun o =>
      (pure ⟨action, o⟩ : Parse ClientV1.Arguments.ConditionalJVMArgument.Rule))
      = .ok ⟨action, os⟩
  rw [parse_toJson_jvm_os os, ok_bind]
  rfl

theorem parse_toJson_jvm_cond
    (t : ClientV1.Arguments.ConditionalJVMArgument) :
    ClientV1.Arguments.ConditionalJVMArgument.parse
      (ClientV1.Arguments.ConditionalJVMArgument.toJson true false t) = .ok t := by
  obtain ⟨rules, value⟩ := t
  show ((rules.map (ClientV1.Arguments.ConditionalJVMArgument.Rule.toJson true false)).mapM
      ClientV1.Arguments.ConditionalJVMArgument.Rule.parse >>= fun rs =>
    StrOrStrList.parse value.toJson >>= fun v =>
      (pure ⟨rs, v⟩ : Parse ClientV1.Arguments.ConditionalJVMArgument)) = .ok ⟨rules, value⟩
  rw [mapM_roundtrip parse_toJson_jvm_rule rules,
    ok_bind, parse_toJson_str_or_list value, ok_bind]
  rfl

theorem parse_toJson_game_elem (t : ClientV1.Arguments.GameElem) :
    ClientV1.Arguments.GameElem.parse (ClientV1.Arguments.GameElem.toJson true false t)
      = .ok t := by
  cases t with
  | str s => rfl
  | cond c =>
      show (ClientV1.Arguments.ConditionalGameArgument.parse
          (ClientV1.Arguments.ConditionalGameArgument.toJson true false c) >>= fun x =>
        (pure (ClientV1.Arguments.GameElem.cond x) : Parse ClientV1.Arguments.GameElem))
        = .ok (ClientV1.Arguments.GameElem.cond c)
      rw [parse_toJson_game_cond c, ok_bind]
      rfl

theorem parse_toJson_jvm_elem (t : ClientV1.Arguments.JvmElem) :
    ClientV1.Arguments.JvmElem.parse (ClientV1.Arguments.JvmElem.toJson true false t)
      = .ok t := by
  cases t with
  | str s => rfl
  | cond c =>
      show (ClientV1.Arguments.ConditionalJVMArgument.parse
          (ClientV1.Arguments.ConditionalJVMArgument.toJson true false c) >>= fun x =>
        (pure (ClientV1.Arguments.JvmElem.cond x) : Parse ClientV1.Arguments.JvmElem))
        = .ok (ClientV1.Arguments.JvmElem.cond c)
      rw [parse_toJson_jvm_cond c, ok_bind]
      rfl

theorem parse_toJson_arguments (t : ClientV1.Arguments) :
    ClientV1.Arguments.parse (ClientV1.Arguments.toJson true false t) = .ok t := by
  obtain ⟨game, jvm⟩ := t
  show ((game.map (ClientV1.Arguments.GameElem.toJson true false)).mapM
      ClientV1.Arguments.GameElem.parse >>= fun g =>
    (jvm.map (ClientV1.Arguments.JvmElem.toJson true false)).mapM
      ClientV1.Arguments.JvmElem.parse >>= fun j =>
      (pure ⟨g, j⟩ : Parse ClientV1.Arguments)) = .ok ⟨game, jvm⟩
  rw [mapM_roundtrip parse_toJson_game_elem game, ok_bind,
    mapM_roundtrip parse_toJson_jvm_elem jvm, ok_bind]
  rfl

/-- Nullable download round-trip, for the optional mapping downloads. -/
theorem parseNullable_download (v : Option ClientV1.Downloads.Download) :
    parseNullable ClientV1.Downloads.Download.parse
      ((v.map (ClientV1.Downloads.Download.toJson true false)).getD .null) = .ok v := by
  cases v <;> rfl

theorem parse_toJson_downloads (t : ClientV1.Downloads) :
    ClientV1.Downloads.parse (ClientV1.Downloads.toJson true false t) = .ok t := by
  obtain ⟨client, client_mappings, server, server_mappings, windows_server⟩ := t
  show (parseNullable ClientV1.Downloads.Download.parse
      ((client_mappings.map (ClientV1.Downloads.Download.toJson true false)).getD .null)
      >>= fun cm =>
    parseNullable ClientV1.Downloads.Download.parse
      ((server_mappings.map (ClientV1.Downloads.Download.toJson true false)).getD .null)
      >>= fun sm =>
    parseNullable ClientV1.Downloads.Download.parse
      ((windows_server.map (ClientV1.Downloads.Download.toJson true false)).getD .null)
      >>= fun ws =>
      (pure ⟨client, cm, server, sm, ws⟩ : Parse ClientV1.Downloads))
      = .ok ⟨client, client_mappings, server, server_mappings, windows_server⟩
  rw [parseNullable_download client_mappings, ok_bind,
    parseNullable_download server_mappings, ok_bind,
    parseNullable_download windows_server, ok_bind]
  rfl

theorem parseNullable_artifact (v : Option ClientV1.Library.Downloads.Artifact) :
    parseNullable ClientV1.Library.Downloads.Artifact.parse
      ((v.map (ClientV1.Library.Downloads.Artifact.toJson true false)).getD .null)
      = .ok v := by
  cases v <;> rfl

/-- Nullable classifier-map round-trip. -/
theorem parseNullable_classifiers
    (v : Option (List (String × ClientV1.Library.Downloads.Artifact))) :
    parseNullable (asStrMap ClientV1.Library.Downloads.Artifact.parse)
      ((v.map (fun cs => .obj (cs.map (fun kv =>
        (kv.1, ClientV1.Library.Downloads.Artifact.toJson true false kv.2))))).getD .null)
      = .ok v := by
  cases v with
  | none => rfl
  | some cs =>
      show (asStrMap ClientV1.Library.Downloads.Artifact.parse
          (.obj (cs.map (fun kv =>
            (kv.1, ClientV1.Library.Downloads.Artifact.toJson true false kv.2)))) >>=
        fun x => (pure (some x) :
          Parse (Option (List (String × ClientV1.Library.Downloads.Artifact)))))
        = .ok (some cs)
      rw [strMap_roundtrip parse_toJson_artifact cs, ok_bind]
      rfl

theorem parse_toJson_lib_downloads (t : ClientV1.Library.Downloads) :
    ClientV1.Library.Downloads.parse (ClientV1.Library.Downloads.toJson true false t)
      = .ok t := by
  obtain ⟨artifact, classifiers⟩ := t
  show (parseNullable ClientV1.Library.Downloads.Artifact.parse
      ((artifact.map (ClientV1.Library.Downloads.Artifact.toJson true false)).getD .null)
      >>= fun a =>
    parseNullable (asStrMap ClientV1.Library.Downloads.Artifact.parse)
      ((classifiers.map (fun cs => .obj (cs.map (fun kv =>
        (kv.1, ClientV1.Library.Downloads.Artifact.toJson true false kv.2))))).getD .null)
      >>= fun c =>
      (pure ⟨a, c⟩ : Parse ClientV1.Library.Downloads)) = .ok ⟨artifact, classifiers⟩
  rw [parseNullable_artifact artifact, ok_bind,
    parseNullable_classifiers classifiers, ok_bind]
  rfl

theorem parse_toJson_extract (t : ClientV1.Library.Extract) :
    ClientV1.Library.Extract.parse (ClientV1.Library.Extract.toJson true false t)
      = .ok t := by
  obtain ⟨exclude⟩ := t
  show ((exclude.map JValue.str).mapM asStr >>= fun xs =>
    (pure ⟨xs⟩ : Parse ClientV1.Library.Extract)) = .ok ⟨exclude⟩
  rw [@mapM_roundtrip String asStr JValue.str (fun s => rfl) exclude, ok_bind]
  rfl

theorem parse_toJson_lib_os (t : ClientV1.Library.Rule.OS) :
    ClientV1.Library.Rule.OS.parse (ClientV1.Library.Rule.OS.toJson true false t)
      = .ok t := by
  obtain ⟨name, version, arch⟩ := t
  show (parseNullable asStr ((name.map JValue.str).getD .null) >>= fun n =>
    parseNullable asStr ((version.map JValue.str).getD .null) >>= fun ve =>
    parseNullable asStr ((arch.map JValue.str).getD .null) >>= fun a =>
      (pure ⟨n, ve, a⟩ : Parse ClientV1.Library.Rule.OS)) = .ok ⟨name, version, arch⟩
  rw [parseNullable_str name, ok_bind, parseNullable_str version, ok_bind,
    parseNullable_str arch, ok_bind]
  rfl

theorem parseNullable_librule_os (v : Option ClientV1.Library.Rule.OS) :
    parseNullable ClientV1.Library.Rule.OS.parse
      ((v.map (ClientV1.Library.Rule.OS.toJson true false)).getD .null) = .ok v := by
  cases v with
  | none => rfl
  | some a =>
      show (ClientV1.Library.Rule.OS.parse (ClientV1.Library.Rule.OS.toJson true false a)
        >>= fun x => (pure (some x) : Parse (Option ClientV1.Library.Rule.OS)))
        = .ok (some a)
      rw [parse_toJson_lib_os a, ok_bind]
      rfl

theorem parse_toJson_lib_rule (t : ClientV1.Library.Rule) :
    ClientV1.Library.Rule.parse (ClientV1.Library.Rule.toJson true false t) = .ok t := by
  obtain ⟨action, os⟩ := t
  show (parseNullable ClientV1.Library.Rule.OS.parse
      ((os.map (ClientV1.Library.Rule.OS.toJson true false)).getD .null) >>= fun o =>
    (pure ⟨action, o⟩ : Parse ClientV1.Library.Rule)) = .ok ⟨action, os⟩
  rw [parseNullable_librule_os os, ok_bind]
  rfl

theorem parseNullable_strMap_str (v : Option (List (String × String))) :
    parseNullable (asStrMap asStr)
      ((v.map (fun ns => .obj (ns.map (fun kv => (kv.1, .str kv.2))))).getD .null)
      = .ok v := by
  cases v with
  | none => rfl
  | some ns =>
      show (asStrMap asStr (.obj (ns.map (fun kv => (kv.1, JValue.str kv.2)))) >>=
        fun x => (pure (some x) : Parse (Option (List (String × String))))) = .ok (some ns)
      rw [@strMap_roundtrip String asStr JValue.str (fun s => rfl) ns, ok_bind]
      rfl

theorem parseNullable_extract (v : Option ClientV1.Library.Extract) :
    parseNullable ClientV1.Library.Extract.parse
      ((v.map (ClientV1.Library.Extract.toJson true false)).getD .null) = .ok v := by
  cases v with
  | none => rfl
  | some a =>
      show (ClientV1.Library.Extract.parse (ClientV1.Library.Extract.toJson true false a)
        >>= fun x => (pure (some x) : Parse (Option ClientV1.Library.Extract)))
        = .ok (some a)
      rw [parse_toJson_extract a, ok_bind]
      rfl

theorem parseNullable_rules (v : Option (List ClientV1.Library.Rule)) :
    parseNullable (asList ClientV1.Library.Rule.parse)
      ((v.map (fun rs => .arr (rs.map (ClientV1.Library.Rule.toJson true false)))).getD .null)
      = .ok v := by
  cases v with
  | none => rfl
  | some rs =>
      show ((rs.map (ClientV1.Library.Rule.toJson true false)).mapM
          ClientV1.Library.Rule.parse >>=
        fun x => (pure (some x) : Parse (Option (List ClientV1.Library.Rule))))
        = .ok (some rs)
      rw [mapM_roundtrip parse_toJson_lib_rule rs, ok_bind]
      rfl

theorem parse_toJson_library (t : ClientV1.Library) :
    ClientV1.Library.parse (ClientV1.Library.toJson true false t) = .ok t := by
  obtain ⟨downloads, name, url, natives, extract, rules⟩ := t
  show (ClientV1.Library.Downloads.parse
      (ClientV1.Library.Downloads.toJson true false downloads) >>= fun d =>
    parseNullable asStr ((url.map JValue.str).getD .null) >>= fun u =>
    parseNullable (asStrMap asStr)
      ((natives.map (fun ns => .obj (ns.map (fun kv => (kv.1, .str kv.2))))).getD .null)
      >>= fun na =>
    parseNullable ClientV1.Library.Extract.parse
      ((extract.map (ClientV1.Library.Extract.toJson true false)).getD .null) >>= fun e =>
    parseNullable (asList ClientV1.Library.Rule.parse)
      ((rules.map (fun rs => .arr (rs.map (ClientV1.Library.Rule.toJson true false)))).getD
        .null) >>= fun r =>
      (pure ⟨d, name, u, na, e, r⟩ : Parse ClientV1.Library))
      = .ok ⟨downloads, name, url, natives, extract, rules⟩
  rw [parse_toJson_lib_downloads downloads, ok_bind,
    parseNullable_str url, ok_bind, parseNullable_strMap_str natives, ok_bind,
    parseNullable_extract extract, ok_bind, parseNullable_rules rules, ok_bind]
  rfl

theorem parseNullable_arguments (v : Option ClientV1.Arguments) :
    parseNullable ClientV1.Arguments.parse
      ((v.map (ClientV1.Arguments.toJson true false)).getD .null) = .ok v := by
  cases v with
  | none => rfl
  | some a =>
      show (ClientV1.Arguments.parse (ClientV1.Arguments.toJson true false a)
        >>= fun x => (pure (some x) : Parse (Option ClientV1.Arguments))) = .ok (some a)
      rw [parse_toJson_arguments a, ok_bind]
      rfl

theorem parseNullable_logging (v : Option ClientV1.Logging) :
    parseNullable ClientV1.Logging.parse
      ((v.map (ClientV1.Logging.toJson true false)).getD .null) = .ok v := by
  cases v <;> rfl

theorem parse_toJson_client (t : ClientV1) :
    ClientV1.parse (ClientV1.toJson true false t) = .ok t := by
  obtain ⟨arguments, asset_index, assets, compliance_level, downloads, id,
    java_version, libraries, logging, main_class, minecraft_arguments,
    minimum_launcher_version, release_time, time, type⟩ := t
  show (parseNullable ClientV1.Arguments.parse
      ((arguments.map (ClientV1.Arguments.toJson true false)).getD .null) >>= fun a =>
    ClientV1.Downloads.parse (ClientV1.Downloads.toJson true false downloads) >>= fun d =>
    (libraries.map (ClientV1.Library.toJson true false)).mapM ClientV1.Library.parse
      >>= fun l =>
    parseNullable ClientV1.Logging.parse
      ((logging.map (ClientV1.Logging.toJson true false)).getD .null) >>= fun g =>
    parseNullable asStr ((minecraft_arguments.map JValue.str).getD .null) >>= fun m =>
      (pure ⟨a, asset_index, assets, compliance_level, d, id, java_version, l, g,
        main_class, m, minimum_launcher_version, release_time, time, type⟩ :
        Parse ClientV1))
      = .ok ⟨arguments, asset_index, assets, compliance_level, downloads, id,
        java_version, libraries, logging, main_class, minecraft_arguments,
        minimum_launcher_version, release_time, time, type⟩
  rw [parseNullable_arguments arguments, ok_bind,
    parse_toJson_downloads downloads, ok_bind,
    mapM_roundtrip parse_toJson_library libraries, ok_bind,
    parseNullable_logging logging, ok_bind,
    parseNullable_str minecraft_arguments, ok_bind]
  rfl

/-! ## Inversion lemmas: what a successful parse implies about the input -/

theorem reqField_none {fs : List (String × JValue)} {k : String}
    (hl : lookupField fs k = none) :
    reqField fs k = .error (k ++ ": field required") := by
  unfold reqField
  rw [hl]

theorem reqField_some {fs : List (String × JValue)} {k : String} {v : JValue}
    (hl : lookupField fs k = some v) : reqField fs k = pure v := by
  unfold reqField
  rw [hl]

/-- A successful required-field parse means the key was present and its
value parsed. -/
theorem reqParse_ok {α : Type} {fs : List (String × JValue)} {k : String}
    {p : JValue → Parse α} {a : α} (h : reqParse fs k p = .ok a) :
    ∃ v, lookupField fs k = some v ∧ p v = .ok a := by
  have hrp : reqParse fs k p = reqField fs k >>= p := rfl
  rw [hrp] at h
  cases hl : lookupField fs k with
  | none =>
      rw [reqField_none hl, error_bind] at h
      exact Except.noConfusion h
  | some v =>
      rw [reqField_some hl, pure_eq_ok, ok_bind] at h
      exact ⟨v, rfl, h⟩

/-- A successful required-nullable-field parse means the key was present. -/
theorem reqNullable_ok {α : Type} {fs : List (String × JValue)} {k : String}
    {p : JValue → Parse α} {a : Option α} (h : reqNullable fs k p = .ok a) :
    ∃ v, lookupField fs k = some v := by
  cases hl : lookupField fs k with
  | none =>
      unfold reqNullable at h
      rw [hl] at h
      exact Except.noConfusion h
  | some v => exact ⟨v, rfl⟩

/-- A successful strictness check means every input key is declared. -/
theorem checkStrict_ok_mem {fs : List (String × JValue)} {declared : List String}
    {u : Unit} (h : checkStrict fs declared = .ok u) {kv : String × JValue}
    (hm : kv ∈ fs) : kv.1 ∈ declared := by
  unfold checkStrict at h
  split at h
  · next hall =>
      rw [List.all_eq_true] at hall
      have hc := hall kv hm
      simp only [List.contains_eq_any_beq, List.any_eq_true, beq_iff_eq] at hc
      obtain ⟨x, hx, hxe⟩ := hc
      exact hxe ▸ hx
  · exact Except.noConfusion h

/-- A parsed v2 version entry has both `sha1` and `complianceLevel` keys. -/
theorem VMV2_Version_ok_keys {efs : List (String × JValue)}
    {x : VersionManifestV2.Version}
    (h : VersionManifestV2.Version.parse (.obj efs) = .ok x) :
    (∃ a, lookupField efs "sha1" = some a) ∧
      (∃ b, lookupField efs "complianceLevel" = some b) := by
  simp only [VersionManifestV2.Version.parse] at h
  obtain ⟨u, hcs, h⟩ := bind_ok_iff.mp h
  obtain ⟨id, hid, h⟩ := bind_ok_iff.mp h
  obtain ⟨ty, hty, h⟩ := bind_ok_iff.mp h
  obtain ⟨url, hurl, h⟩ := bind_ok_iff.mp h
  obtain ⟨tm, htm, h⟩ := bind_ok_iff.mp h
  obtain ⟨rt, hrt, h⟩ := bind_ok_iff.mp h
  obtain ⟨sh, hsh, h⟩ := bind_ok_iff.mp h
  obtain ⟨cl, hcl, h⟩ := bind_ok_iff.mp h
  obtain ⟨v1, hv1, _⟩ := reqParse_ok hsh
  obtain ⟨v2, hv2, _⟩ := reqParse_ok hcl
  exact ⟨⟨v1, hv1⟩, ⟨v2, hv2⟩⟩

/-- A parsed v1 version entry has only declared (v1) keys. -/
theorem VMV1_Version_ok_keys {efs : List (String × JValue)}
    {x : VersionManifestV1.Version}
    (h : VersionManifestV1.Version.parse (.obj efs) = .ok x) {kv : String × JValue}
    (hm : kv ∈ efs) : kv.1 ∈ VersionManifestV1.Version.keys := by
  simp only [VersionManifestV1.Version.parse] at h
  obtain ⟨u, hcs, h⟩ := bind_ok_iff.mp h
  exact checkStrict_ok_mem hcs hm

/-- A successful v1 manifest parse validates every element of `versions`. -/
theorem VMV1_parse_ok_versions {fs : List (String × JValue)} {es : List JValue}
    {v : VersionManifestV1} (hlook : lookupField fs "versions" = some (.arr es))
    (h : VersionManifestV1.parse (.obj fs) = .ok v) :
    ∀ e ∈ es, ∃ x, VersionManifestV1.Version.parse e = .ok x := by
  simp only [VersionManifestV1.parse] at h
  obtain ⟨u, hcs, h⟩ := bind_ok_iff.mp h
  obtain ⟨la, hla, h⟩ := bind_ok_iff.mp h
  obtain ⟨vs, hvs, _⟩ := bind_ok_iff.mp h
  obtain ⟨jv, hjv, hp⟩ := reqParse_ok hvs
  rw [hlook] at hjv
  cases hjv
  intro e hmem
  exact mapM_ok_mem hp hmem

/-- A successful v2 manifest parse validates every element of `versions`. -/
theorem VMV2_parse_ok_versions {fs : List (String × JValue)} {es : List JValue}
    {v : VersionManifestV2} (hlook : lookupField fs "versions" = some (.arr es))
    (h : VersionManifestV2.parse (.obj fs) = .ok v) :
    ∀ e ∈ es, ∃ x, VersionManifestV2.Version.parse e = .ok x := by
  simp only [VersionManifestV2.parse] at h
  obtain ⟨u, hcs, h⟩ := bind_ok_iff.mp h
  obtain ⟨la, hla, h⟩ := bind_ok_iff.mp h
  obtain ⟨vs, hvs, _⟩ := bind_ok_iff.mp h
  obtain ⟨jv, hjv, hp⟩ := reqParse_ok hvs
  rw [hlook] at hjv
  cases hjv
  intro e hmem
  exact mapM_ok_mem hp hmem

/-- A successful client parse means the `logging` key was present. -/
theorem ClientV1_parse_ok_logging {fs : List (String × JValue)} {v : ClientV1}
    (h : ClientV1.parse (.obj fs) = .ok v) :
    ∃ jv, lookupField fs "logging" = some jv := by
  simp only [ClientV1.parse] at h
  obtain ⟨u, hcs, h⟩ := bind_ok_iff.mp h
  obtain ⟨a1, h1, h⟩ := bind_ok_iff.mp h
  obtain ⟨a2, h2, h⟩ := bind_ok_iff.mp h
  obtain ⟨a3, h3, h⟩ := bind_ok_iff.mp h
  obtain ⟨a4, h4, h⟩ := bind_ok_iff.mp h
  obtain ⟨a5, h5, h⟩ := bind_ok_iff.mp h
  obtain ⟨a6, h6, h⟩ := bind_ok_iff.mp h
  obtain ⟨a7, h7, h⟩ := bind_ok_iff.mp h
  obtain ⟨a8, h8, h⟩ := bind_ok_iff.mp h
  obtain ⟨a9, h9, h⟩ := bind_ok_iff.mp h
  exact reqNullable_ok h9

/-! ## Concrete sample documents and values -/

/-- A `{sha1, size, url}` download triple, as JSON. -/
def dlDoc : JValue :=
  .obj [("sha1", .str "b2a3"), ("size", .num 10),
        ("url", .str "https://piston-data.mojang.com/client.jar")]

/-- The value `dlDoc` parses to. -/
def dlVal : ClientV1.Downloads.Download :=
  ⟨"b2a3", 10, "https://piston-data.mojang.com/client.jar"⟩

/-- A `Downloads` value with only the required client/server downloads. -/
def downloadsVal : ClientV1.Downloads := ⟨dlVal, none, dlVal, none, none⟩

/-- A minimal valid client descriptor document: `arguments` and
`minecraftArguments` omitted, `logging` explicitly `null`. -/
def clientDoc : JValue :=
  .obj [("assetIndex", .obj [("id", .str "17"), ("sha1", .str "aa"),
          ("size", .num 100), ("totalSize", .num 200),
          ("url", .str "https://piston-meta.mojang.com/a.json")]),
        ("assets", .str "17"),
        ("complianceLevel", .num 1),
        ("downloads", .obj [("client", dlDoc), ("server", dlDoc)]),
        ("id", .str "1.20.2"),
        ("javaVersion", .obj [("component", .str "java-runtime-gamma"),
          ("majorVersion", .num 17)]),
        ("libraries", .arr []),
        ("logging", .null),
        ("mainClass", .str "net.minecraft.client.main.Main"),
        ("minimumLauncherVersion", .num 21),
        ("releaseTime", .str "2023-09-21T14:08:46+00:00"),
        ("time", .str "2023-09-21T14:08:46+00:00"),
        ("type", .str "release")]

/-- The value `clientDoc` parses to. -/
def clientVal : ClientV1 :=
  { arguments := none
    asset_index := ⟨"17", "aa", 100, 200, "https://piston-meta.mojang.com/a.json"⟩
    assets := "17"
    compliance_level := 1
    downloads := downloadsVal
    id := "1.20.2"
    java_version := ⟨"java-runtime-gamma", 17⟩
    libraries := []
    logging := none
    main_class := "net.minecraft.client.main.Main"
    minecraft_arguments := none
    minimum_launcher_version := 21
    release_time := "2023-09-21T14:08:46+00:00"
    time := "2023-09-21T14:08:46+00:00"
    type := "release" }

/-- Same as `clientDoc` with the `logging` key removed entirely. -/
def clientDocNoLogging : JValue :=
  .obj [("assetIndex", .obj [("id", .str "17"), ("sha1", .str "aa"),
          ("size", .num 100), ("totalSize", .num 200),
          ("url", .str "https://piston-meta.mojang.com/a.json")]),
        ("assets", .str "17"),
        ("complianceLevel", .num 1),
        ("downloads", .obj [("client", dlDoc), ("server", dlDoc)]),
        ("id", .str "1.20.2"),
        ("javaVersion", .obj [("component", .str "java-runtime-gamma"),
          ("majorVersion", .num 17)]),
        ("libraries", .arr []),
        ("mainClass", .str "net.minecraft.client.main.Main"),
        ("minimumLauncherVersion", .num 21),
        ("releaseTime", .str "2023-09-21T14:08:46+00:00"),
        ("time", .str "2023-09-21T14:08:46+00:00"),
        ("type", .str "release")]

/-- Same as `clientDoc` with negative `size` and `totalSize` in `assetIndex`. -/
def clientDocNeg : JValue :=
  .obj [("assetIndex", .obj [("id", .str "17"), ("sha1", .str "aa"),
          ("size", .num (-5)), ("totalSize", .num (-7)),
          ("url", .str "https://piston-meta.mojang.com/a.json")]),
        ("assets", .str "17"),
        ("complianceLevel", .num 1),
        ("downloads", .obj [("client", dlDoc), ("server", dlDoc)]),
        ("id", .str "1.20.2"),
        ("javaVersion", .obj [("component", .str "java-runtime-gamma"),
          ("majorVersion", .num 17)]),
        ("libraries", .arr []),
        ("logging", .null),
        ("mainClass", .str "net.minecraft.client.main.Main"),
        ("minimumLauncherVersion", .num 21),
        ("releaseTime", .str "2023-09-21T14:08:46+00:00"),
        ("time", .str "2023-09-21T14:08:46+00:00"),
        ("type", .str "release")]

/-- The value `clientDocNeg` parses to: the negative sizes are stored. -/
def clientValNeg : ClientV1 :=
  { clientVal with
    asset_index := ⟨"17", "aa", -5, -7, "https://piston-meta.mojang.com/a.json"⟩ }

/-- A small v1 manifest document. -/
def vm1Doc : JValue :=
  .obj [("latest", .obj [("release", .str "1.20.2"), ("snapshot", .str "23w40a")]),
        ("versions", .arr [.obj [("id", .str "23w40a"), ("type", .str "snapshot"),
          ("url", .str "https://piston-meta.mojang.com/v.json"),
          ("time", .str "2023-10-04T12:00:00+00:00"),
          ("releaseTime", .str "2023-10-04T12:00:00+00:00")]])]

/-- The value `vm1Doc` parses to. -/
def vm1Val : VersionManifestV1 :=
  ⟨⟨"1.20.2", "23w40a"⟩, [⟨"23w40a", "snapshot", "https://piston-meta.mojang.com/v.json",
    "2023-10-04T12:00:00+00:00", "2023-10-04T12:00:00+00:00"⟩]⟩

/-- A small v2 manifest document: v1 entries plus `sha1`/`complianceLevel`. -/
def vm2Doc : JValue :=
  .obj [("latest", .obj [("release", .str "1.20.2"), ("snapshot", .str "23w40a")]),
        ("versions", .arr [.obj [("id", .str "23w40a"), ("type", .str "snapshot"),
          ("url", .str "https://piston-meta.mojang.com/v.json"),
          ("time", .str "2023-10-04T12:00:00+00:00"),
          ("releaseTime", .str "2023-10-04T12:00:00+00:00"),
          ("sha1", .str "0123abcd"), ("complianceLevel", .num 1)]])]

/-- The value `vm2Doc` parses to. -/
def vm2Val : VersionManifestV2 :=
  ⟨⟨"1.20.2", "23w40a"⟩, [⟨"23w40a", "snapshot", "https://piston-meta.mojang.com/v.json",
    "2023-10-04T12:00:00+00:00", "2023-10-04T12:00:00+00:00", "0123abcd", 1⟩]⟩

/-! ## Claim theorems -/

theorem string_take_all {s : String} {n : Nat} (h : s.length ≤ n) : s.take n = s := by
  rw [String.take_eq, List.take_of_length_le h]

/-- C2: for every document D successfully parsed by any of the three schemas
(VersionManifestV1, VersionManifestV2, ClientV1), parsing the result of
serialising D with external names and all fields included yields a document
structurally equal to D. -/
theorem C2_roundtrip :
    (∀ j D, VersionManifestV1.parse j = .ok D →
      VersionManifestV1.parse (VersionManifestV1.toJson true false D) = .ok D) ∧
    (∀ j D, VersionManifestV2.parse j = .ok D →
      VersionManifestV2.parse (VersionManifestV2.toJson true false D) = .ok D) ∧
    (∀ j D, ClientV1.parse j = .ok D →
      ClientV1.parse (ClientV1.toJson true false D) = .ok D) :=
  ⟨fun _ D _ => parse_toJson_vm1 D,
   fun _ D _ => parse_toJson_vm2 D,
   fun _ D _ => parse_toJson_client D⟩

/-- Witness for C2: concrete parsed documents of all three schemas
round-trip. -/
theorem C2_roundtrip_witness :
    VersionManifestV1.parse (VersionManifestV1.toJson true false vm1Val) = .ok vm1Val ∧
    VersionManifestV2.parse (VersionManifestV2.toJson true false vm2Val) = .ok vm2Val ∧
    ClientV1.parse (ClientV1.toJson true false clientVal) = .ok clientVal :=
  ⟨C2_roundtrip.1 vm1Doc vm1Val rfl,
   C2_roundtrip.2.1 vm2Doc vm2Val rfl,
   C2_roundtrip.2.2 clientDoc clientVal rfl⟩

/-- C5 as stated is false: for `file_version = 3` the URL embeds `_v3`,
not `_v2`. -/
theorem C5_counterexample :
    version_manifest_url 3 ≠
      "https://piston-meta.mojang.com/mc/game/version_manifest_v2.json" ∧
    version_manifest_url 3 =
      "https://piston-meta.mojang.com/mc/game/version_manifest_v3.json" := by
  exact ⟨by decide, rfl⟩

/-- C5 (amended): `version_manifest_url` returns
`.../version_manifest.json` for `file_version = 1` and
`.../version_manifest_v{file_version}.json` for every other integer
(`_v2` exactly for the default argument 2). -/
theorem C5_version_manifest_url :
    version_manifest_url 1 =
      "https://piston-meta.mojang.com/mc/game/version_manifest.json" ∧
    version_manifest_url 2 =
      "https://piston-meta.mojang.com/mc/game/version_manifest_v2.json" ∧
    (∀ n : Int, n ≠ 1 → version_manifest_url n =
      "https://piston-meta.mojang.com/mc/game/version_manifest_v"
        ++ toString n ++ ".json") := by
  refine ⟨rfl, rfl, fun n hn => ?_⟩
  show "https://piston-meta.mojang.com/mc/game/version_manifest"
      ++ (if n = 1 then "" else "_v" ++ toString n) ++ ".json" = _
  rw [if_neg hn, ← String.append_assoc]
  rw [show ("https://piston-meta.mojang.com/mc/game/version_manifest" ++ "_v" : String)
    = "https://piston-meta.mojang.com/mc/game/version_manifest_v" from rfl]

/-- Witness for C5: the amended general form evaluated at 5. -/
theorem C5_version_manifest_url_witness :
    version_manifest_url 5 =
      "https://piston-meta.mojang.com/mc/game/version_manifest_v"
        ++ toString (5 : Int) ++ ".json" :=
  C5_version_manifest_url.2.2 5 (by decide)

/-- C6: a bare JSON string element of `game`/`jvm` parses to a plain-string
element without being matched against the conditional-argument shape; an
object that validates as a conditional argument (`rules` + `value`) parses
to the conditional alternative. -/
theorem C6_union_resolution :
    (∀ s, ClientV1.Arguments.GameElem.parse (.str s) = .ok (.str s)) ∧
    (∀ s, ClientV1.Arguments.JvmElem.parse (.str s) = .ok (.str s)) ∧
    (∀ fs c, ClientV1.Arguments.ConditionalGameArgument.parse (.obj fs) = .ok c →
      ClientV1.Arguments.GameElem.parse (.obj fs) = .ok (.cond c)) ∧
    (∀ fs c, ClientV1.Arguments.ConditionalJVMArgument.parse (.obj fs) = .ok c →
      ClientV1.Arguments.JvmElem.parse (.obj fs) = .ok (.cond c)) := by
  refine ⟨fun s => rfl, fun s => rfl, fun fs c h => ?_, fun fs c h => ?_⟩
  · show (ClientV1.Arguments.ConditionalGameArgument.parse (.obj fs) >>= fun x =>
      (pure (ClientV1.Arguments.GameElem.cond x) : Parse ClientV1.Arguments.GameElem))
      = .ok (.cond c)
    rw [h, ok_bind]
    rfl
  · show (ClientV1.Arguments.ConditionalJVMArgument.parse (.obj fs) >>= fun x =>
      (pure (ClientV1.Arguments.JvmElem.cond x) : Parse ClientV1.Arguments.JvmElem))
      = .ok (.cond c)
    rw [h, ok_bind]
    rfl

/-- Witness for C6: a concrete conditional game argument resolves to the
conditional alternative. -/
theorem C6_union_resolution_witness :
    ClientV1.Arguments.GameElem.parse (.obj [("rules", .arr []), ("value", .str "--demo")])
      = .ok (.cond ⟨[], .str "--demo"⟩) :=
  C6_union_resolution.2.2.1 [("rules", .arr []), ("value", .str "--demo")]
    ⟨[], .str "--demo"⟩ rfl

/-- C9 as stated is false: a client document whose `assetIndex` carries
negative `size`/`totalSize` is accepted by parse, storing the negatives. -/
theorem C9_counterexample :
    ClientV1.parse clientDocNeg = .ok clientValNeg ∧
    clientValNeg.asset_index.size = -5 ∧ clientValNeg.asset_index.total_size = -7 :=
  ⟨rfl, rfl, rfl⟩

/-- C9 (amended): `size` and `total_size` are plain `int` fields; parse
imposes no sign constraint and stores any integers, negative included. -/
theorem C9_sizes_unchecked :
    ∀ (i s u : String) (n m : Int),
      ClientV1.AssetIndex.parse (.obj [("id", .str i), ("sha1", .str s),
        ("size", .num n), ("totalSize", .num m), ("url", .str u)])
        = .ok ⟨i, s, n, m, u⟩ :=
  fun _ _ _ _ _ => rfl

/-- C10: `resource_url` is total, and for hashes shorter than two
characters the first path segment is the whole hash; the spec's example
hash is also checked. -/
theorem C10_resource_url_short :
    (∀ h : String, h.length < 2 →
      resource_url h = "https://resources.download.minecraft.net/" ++ h ++ "/" ++ h) ∧
    resource_url "a" = "https://resources.download.minecraft.net/a/a" ∧
    resource_url "" = "https://resources.download.minecraft.net//" ∧
    resource_url "a4b8e10ef85fede15e62686724205f18cd819c77" =
      "https://resources.download.minecraft.net/a4/a4b8e10ef85fede15e62686724205f18cd819c77"
    := by
  refine ⟨fun h hlt => ?_, rfl, rfl, rfl⟩
  show "https://resources.download.minecraft.net/" ++ h.take 2 ++ "/" ++ h = _
  rw [string_take_all (Nat.le_of_lt hlt)]

/-- Witness for C10: the degenerate one-character hash. -/
theorem C10_resource_url_short_witness :
    resource_url "a" = "https://resources.download.minecraft.net/" ++ "a" ++ "/" ++ "a" :=
  C10_resource_url_short.1 "a" (by decide)

/-- C4 as stated is false: a client document that omits the `logging` key
entirely, with every other required field present and valid, is rejected
(`logging` is `Optional[Logging]` with no default, hence required). -/
theorem C4_counterexample : isErr (ClientV1.parse clientDocNoLogging) = true := rfl

/-- C4 (amended): `arguments` and `minecraft_arguments` may be omitted
entirely; `logging` is nullable but its key must be present — a document
without a `logging` key never parses. -/
theorem C4_optional_fields :
    ClientV1.parse clientDoc = .ok clientVal ∧
    (∀ fs, lookupField fs "logging" = none → isErr (ClientV1.parse (.obj fs)) = true) := by
  refine ⟨rfl, fun fs hnone => isErr_of_ne_ok fun v hok => ?_⟩
  obtain ⟨jv, hjv⟩ := ClientV1_parse_ok_logging hok
  rw [hnone] at hjv
  exact Option.noConfusion hjv

/-- Witness for C4: the empty object has no `logging` key and is rejected. -/
theorem C4_optional_fields_witness : isErr (ClientV1.parse (.obj [])) = true :=
  C4_optional_fields.2 [] rfl

/-- C8: with the overridden defaults of `ClientV1.model_dump_json`
(`exclude_none=True`), a descriptor whose optional fields are unset
serialises without those keys (and hence without any `null` for them);
likewise the optional mapping downloads inside `downloads`. -/
theorem C8_omit_unset :
    (∀ c : ClientV1, c.arguments = none → c.minecraft_arguments = none →
      c.logging = none →
      jKeys (ClientV1.model_dump_json_default c) =
        ["asset_index", "assets", "compliance_level", "downloads", "id",
         "java_version", "libraries", "main_class", "minimum_launcher_version",
         "release_time", "time", "type"]) ∧
    (∀ d : ClientV1.Downloads, d.client_mappings = none → d.server_mappings = none →
      d.windows_server = none →
      jKeys (ClientV1.Downloads.toJson false true d) = ["client", "server"]) := by
  constructor
  · intro c h1 h2 h3
    obtain ⟨a1, a2, a3, a4, a5, a6, a7, a8, a9, a10, a11, a12, a13, a14, a15⟩ := c
    subst h1 h2 h3
    rfl
  · intro d h1 h2 h3
    obtain ⟨b1, b2, b3, b4, b5⟩ := d
    subst h1 h2 h3
    rfl

/-- Witness for C8: the concrete parsed descriptor with unset optionals. -/
theorem C8_omit_unset_witness :
    jKeys (ClientV1.model_dump_json_default clientVal) =
      ["asset_index", "assets", "compliance_level", "downloads", "id",
       "java_version", "libraries", "main_class", "minimum_launcher_version",
       "release_time", "time", "type"] ∧
    jKeys (ClientV1.Downloads.toJson false true downloadsVal) = ["client", "server"] :=
  ⟨C8_omit_unset.1 clientVal rfl rfl rfl, C8_omit_unset.2 downloadsVal rfl rfl rfl⟩

/-- C3: for every schema of the system — the two version-manifest schemas,
the client-descriptor schema, and every nested sub-schema — an input object
containing a key not declared in that schema is rejected
(`extra="forbid"`); the unknown field is never ignored or stored. -/
theorem C3_strict_unknown_keys :
    (∀ fs (kv : String × JValue), kv ∈ fs → kv.1 ∉ ClientV1.keys →
      isErr (ClientV1.parse (.obj fs)) = true) ∧
    (∀ fs (kv : String × JValue), kv ∈ fs → kv.1 ∉ VersionManifestV1.keys →
      isErr (VersionManifestV1.parse (.obj fs)) = true) ∧
    (∀ fs (kv : String × JValue), kv ∈ fs → kv.1 ∉ VersionManifestV2.keys →
      isErr (VersionManifestV2.parse (.obj fs)) = true) ∧
    (∀ fs (kv : String × JValue), kv ∈ fs → kv.1 ∉ Latest.keys →
      isErr (Latest.parse (.obj fs)) = true) ∧
    (∀ fs (kv : String × JValue), kv ∈ fs → kv.1 ∉ VersionManifestV1.Version.keys →
      isErr (VersionManifestV1.Version.parse (.obj fs)) = true) ∧
    (∀ fs (kv : String × JValue), kv ∈ fs → kv.1 ∉ VersionManifestV2.Version.keys →
      isErr (VersionManifestV2.Version.parse (.obj fs)) = true) ∧
    (∀ fs (kv : String × JValue), kv ∈ fs → kv.1 ∉ ClientV1.Arguments.keys →
      isErr (ClientV1.Arguments.parse (.obj fs)) = true) ∧
    (∀ fs (kv : String × JValue), kv ∈ fs →
      kv.1 ∉ ClientV1.Arguments.ConditionalGameArgument.keys →
      isErr (ClientV1.Arguments.ConditionalGameArgument.parse (.obj fs)) = true) ∧
    (∀ fs (kv : String × JValue), kv ∈ fs →
      kv.1 ∉ ClientV1.Arguments.ConditionalGameArgument.Rule.keys →
      isErr (ClientV1.Arguments.ConditionalGameArgument.Rule.parse (.obj fs)) = true) ∧
    (∀ fs (kv : String × JValue), kv ∈ fs →
      kv.1 ∉ ClientV1.Arguments.ConditionalJVMArgument.keys →
      isErr (ClientV1.Arguments.ConditionalJVMArgument.parse (.obj fs)) = true) ∧
    (∀ fs (kv : String × JValue), kv ∈ fs →
      kv.1 ∉ ClientV1.Arguments.ConditionalJVMArgument.Rule.keys →
      isErr (ClientV1.Arguments.ConditionalJVMArgument.Rule.parse (.obj fs)) = true) ∧
    (∀ fs (kv : String × JValue), kv ∈ fs →
      kv.1 ∉ ClientV1.Arguments.ConditionalJVMArgument.Rule.OS.keys →
      isErr (ClientV1.Arguments.ConditionalJVMArgument.Rule.OS.parse (.obj fs)) = true) ∧
    (∀ fs (kv : String × JValue), kv ∈ fs → kv.1 ∉ ClientV1.AssetIndex.keys →
      isErr (ClientV1.AssetIndex.parse (.obj fs)) = true) ∧
    (∀ fs (kv : String × JValue), kv ∈ fs → kv.1 ∉ ClientV1.Downloads.keys →
      isErr (ClientV1.Downloads.parse (.obj fs)) = true) ∧
    (∀ fs (kv : String × JValue), kv ∈ fs → kv.1 ∉ ClientV1.Downloads.Download.keys →
      isErr (ClientV1.Downloads.Download.parse (.obj fs)) = true) ∧
    (∀ fs (kv : String × JValue), kv ∈ fs → kv.1 ∉ ClientV1.JavaVersion.keys →
      isErr (ClientV1.JavaVersion.parse (.obj fs)) = true) ∧
    (∀ fs (kv : String × JValue), kv ∈ fs → kv.1 ∉ ClientV1.Library.keys →
      isErr (ClientV1.Library.parse (.obj fs)) = true) ∧
    (∀ fs (kv : String × JValue), kv ∈ fs → kv.1 ∉ ClientV1.Library.Downloads.keys →
      isErr (ClientV1.Library.Downloads.parse (.obj fs)) = true) ∧
    (∀ fs (kv : String × JValue), kv ∈ fs →
      kv.1 ∉ ClientV1.Library.Downloads.Artifact.keys →
      isErr (ClientV1.Library.Downloads.Artifact.parse (.obj fs)) = true) ∧
    (∀ fs (kv : String × JValue), kv ∈ fs → kv.1 ∉ ClientV1.Library.Extract.keys →
      isErr (ClientV1.Library.Extract.parse (.obj fs)) = true) ∧
    (∀ fs (kv : String × JValue), kv ∈ fs → kv.1 ∉ ClientV1.Library.Rule.keys →
      isErr (ClientV1.Library.Rule.parse (.obj fs)) = true) ∧
    (∀ fs (kv : String × JValue), kv ∈ fs → kv.1 ∉ ClientV1.Library.Rule.OS.keys →
      isErr (ClientV1.Library.Rule.OS.parse (.obj fs)) = true) ∧
    (∀ fs (kv : String × JValue), kv ∈ fs → kv.1 ∉ ClientV1.Logging.keys →
      isErr (ClientV1.Logging.parse (.obj fs)) = true) ∧
    (∀ fs (kv : String × JValue), kv ∈ fs → kv.1 ∉ ClientV1.Logging.Client.keys →
      isErr (ClientV1.Logging.Client.parse (.obj fs)) = true) ∧
    (∀ fs (kv : String × JValue), kv ∈ fs → kv.1 ∉ ClientV1.Logging.Client.File.keys →
      isErr (ClientV1.Logging.Client.File.parse (.obj fs)) = true) :=
  ⟨fun _ kv hm hk => bind_isErr _ (checkStrict_err kv hm hk),
   fun _ kv hm hk => bind_isErr _ (checkStrict_err kv hm hk),
   fun _ kv hm hk => bind_isErr _ (checkStrict_err kv hm hk),
   fun _ kv hm hk => bind_isErr _ (checkStrict_err kv hm hk),
   fun _ kv hm hk => bind_isErr _ (checkStrict_err kv hm hk),
   fun _ kv hm hk => bind_isErr _ (checkStrict_err kv hm hk),
   fun _ kv hm hk => bind_isErr _ (checkStrict_err kv hm hk),
   fun _ kv hm hk => bind_isErr _ (checkStrict_err kv hm hk),
   fun _ kv hm hk => bind_isErr _ (checkStrict_err kv hm hk),
   fun _ kv hm hk => bind_isErr _ (checkStrict_err kv hm hk),
   fun _ kv hm hk => bind_isErr _ (checkStrict_err kv hm hk),
   fun _ kv hm hk => bind_isErr _ (checkStrict_err kv hm hk),
   fun _ kv hm hk => bind_isErr _ (checkStrict_err kv hm hk),
   fun _ kv hm hk => bind_isErr _ (checkStrict_err kv hm hk),
   fun _ kv hm hk => bind_isErr _ (checkStrict_err kv hm hk),
   fun _ kv hm hk => bind_isErr _ (checkStrict_err kv hm hk),
   fun _ kv hm hk => bind_isErr _ (checkStrict_err kv hm hk),
   fun _ kv hm hk => bind_isErr _ (checkStrict_err kv hm hk),
   fun _ kv hm hk => bind_isErr _ (checkStrict_err kv hm hk),
   fun _ kv hm hk => bind_isErr _ (checkStrict_err kv hm hk),
   fun _ kv hm hk => bind_isErr _ (checkStrict_err kv hm hk),
   fun _ kv hm hk => bind_isErr _ (checkStrict_err kv hm hk),
   fun _ kv hm hk => bind_isErr _ (checkStrict_err kv hm hk),
   fun _ kv hm hk => bind_isErr _ (checkStrict_err kv hm hk),
   fun _ kv hm hk => bind_isErr _ (checkStrict_err kv hm hk)⟩

/-- Witness for C3: an undeclared key `bogus` is rejected by the
client-descriptor schema. -/
theorem C3_strict_unknown_keys_witness :
    isErr (ClientV1.parse (.obj [("bogus", JValue.null)])) = true :=
  C3_strict_unknown_keys.1 [("bogus", JValue.null)] ("bogus", JValue.null)
    (List.Mem.head _) (by decide)

/-- C7: a manifest document one of whose version entries lacks `sha1` or
`complianceLevel` is rejected by the v2 schema; a manifest document one of
whose version entries contains `sha1` or `complianceLevel` is rejected by
the v1 schema. -/
theorem C7_manifest_cross_rejection :
    (∀ fs es efs, lookupField fs "versions" = some (.arr es) →
      (JValue.obj efs) ∈ es →
      (lookupField efs "sha1" = none ∨ lookupField efs "complianceLevel" = none) →
      isErr (VersionManifestV2.parse (.obj fs)) = true) ∧
    (∀ fs es efs (kv : String × JValue), lookupField fs "versions" = some (.arr es) →
      (JValue.obj efs) ∈ es → kv ∈ efs →
      (kv.1 = "sha1" ∨ kv.1 = "complianceLevel") →
      isErr (VersionManifestV1.parse (.obj fs)) = true) := by
  constructor
  · intro fs es efs hlook hmem hnone
    refine isErr_of_ne_ok fun v hok => ?_
    obtain ⟨x, hx⟩ := VMV2_parse_ok_versions hlook hok (.obj efs) hmem
    obtain ⟨⟨a, ha⟩, b, hb⟩ := VMV2_Version_ok_keys hx
    rcases hnone with hn | hn
    · rw [hn] at ha
      exact Option.noConfusion ha
    · rw [hn] at hb
      exact Option.noConfusion hb
  · intro fs es efs kv hlook hmem hkv hkey
    refine isErr_of_ne_ok fun v hok => ?_
    obtain ⟨x, hx⟩ := VMV1_parse_ok_versions hlook hok (.obj efs) hmem
    have hdecl := VMV1_Version_ok_keys hx hkv
    rcases hkey with he | he <;> rw [he] at hdecl <;> exact absurd hdecl (by decide)

/-- Witness for C7: a fabricated manifest whose only entry is an empty
object (no `sha1`) is rejected by v2; a fabricated manifest whose entry
carries `sha1` is rejected by v1. -/
theorem C7_manifest_cross_rejection_witness :
    isErr (VersionManifestV2.parse
      (.obj [("versions", .arr [.obj []])])) = true ∧
    isErr (VersionManifestV1.parse
      (.obj [("versions", .arr [.obj [("sha1", .str "0123abcd")]])])) = true :=
  ⟨C7_manifest_cross_rejection.1 [("versions", .arr [.obj []])] [.obj []] []
      rfl (List.Mem.head _) (Or.inl rfl),
   C7_manifest_cross_rejection.2 [("versions", .arr [.obj [("sha1", .str "0123abcd")]])]
      [.obj [("sha1", .str "0123abcd")]] [("sha1", .str "0123abcd")]
      ("sha1", .str "0123abcd") rfl (List.Mem.head _) (List.Mem.head _) (Or.inl rfl)⟩

/-- C1 as stated is false for the `ClientDescriptor` downloads section:
`ClientV1.Downloads` defines no alias generator, so its wire keys are the
snake_case field names — `clientMappings` is rejected as an unknown key
while `client_mappings` is accepted. -/
theorem C1_counterexample :
    isErr (ClientV1.Downloads.parse (.obj [("client", dlDoc), ("server", dlDoc),
      ("clientMappings", dlDoc)])) = true ∧
    ClientV1.Downloads.parse (.obj [("client", dlDoc), ("client_mappings", dlDoc),
      ("server", dlDoc)]) = .ok ⟨dlVal, some dlVal, dlVal, none, none⟩ :=
  ⟨rfl, rfl⟩

/-- C1 (amended): every model that uses the camelCase alias generator
(every schema type except `ClientV1.Downloads`) exposes each declared
field under its camelCase name — serialisation with external names emits
exactly those keys, and input keyed by the snake_case internal name is
rejected where the two differ; `ClientV1.Downloads` instead keeps the
snake_case wire keys `client_mappings`, `server_mappings`,
`windows_server`. -/
theorem C1_wire_names :
    (ClientV1.keys = ClientV1.names.map to_camel ∧
      VersionManifestV1.keys = VersionManifestV1.names.map to_camel ∧
      VersionManifestV2.keys = VersionManifestV2.names.map to_camel ∧
      Latest.keys = Latest.names.map to_camel ∧
      VersionManifestV1.Version.keys = VersionManifestV1.Version.names.map to_camel ∧
      VersionManifestV2.Version.keys = VersionManifestV2.Version.names.map to_camel ∧
      ClientV1.Arguments.keys = ClientV1.Arguments.names.map to_camel ∧
      ClientV1.Arguments.ConditionalGameArgument.keys
        = ClientV1.Arguments.ConditionalGameArgument.names.map to_camel ∧
      ClientV1.Arguments.ConditionalGameArgument.Rule.keys
        = ClientV1.Arguments.ConditionalGameArgument.Rule.names.map to_camel ∧
      ClientV1.Arguments.ConditionalJVMArgument.keys
        = ClientV1.Arguments.ConditionalJVMArgument.names.map to_camel ∧
      ClientV1.Arguments.ConditionalJVMArgument.Rule.keys
        = ClientV1.Arguments.ConditionalJVMArgument.Rule.names.map to_camel ∧
      ClientV1.Arguments.ConditionalJVMArgument.Rule.OS.keys
        = ClientV1.Arguments.ConditionalJVMArgument.Rule.OS.names.map to_camel ∧
      ClientV1.AssetIndex.keys = ClientV1.AssetIndex.names.map to_camel ∧
      ClientV1.Downloads.Download.keys
        = ClientV1.Downloads.Download.names.map to_camel ∧
      ClientV1.JavaVersion.keys = ClientV1.JavaVersion.names.map to_camel ∧
      ClientV1.Library.keys = ClientV1.Library.names.map to_camel ∧
      ClientV1.Library.Downloads.keys = ClientV1.Library.Downloads.names.map to_camel ∧
      ClientV1.Library.Downloads.Artifact.keys
        = ClientV1.Library.Downloads.Artifact.names.map to_camel ∧
      ClientV1.Library.Extract.keys = ClientV1.Library.Extract.names.map to_camel ∧
      ClientV1.Library.Rule.keys = ClientV1.Library.Rule.names.map to_camel ∧
      ClientV1.Library.Rule.OS.keys = ClientV1.Library.Rule.OS.names.map to_camel ∧
      ClientV1.Logging.keys = ClientV1.Logging.names.map to_camel ∧
      ClientV1.Logging.Client.keys = ClientV1.Logging.Client.names.map to_camel ∧
      ClientV1.Logging.Client.File.keys
        = ClientV1.Logging.Client.File.names.map to_camel) ∧
    (ClientV1.Downloads.keys = ClientV1.Downloads.names ∧
      ClientV1.Downloads.keys ≠ ClientV1.Downloads.names.map to_camel) ∧
    (∀ t : ClientV1, jKeys (ClientV1.toJson true false t) = ClientV1.keys) ∧
    (∀ d : ClientV1.Downloads,
      jKeys (ClientV1.Downloads.toJson true false d) = ClientV1.Downloads.keys) ∧
    (∀ fs (kv : String × JValue), kv ∈ fs →
      kv.1 ∈ ["asset_index", "compliance_level", "java_version", "main_class",
              "minecraft_arguments", "minimum_launcher_version", "release_time"] →
      isErr (ClientV1.parse (.obj fs)) = true) ∧
    (∀ fs (kv : String × JValue), kv ∈ fs → kv.1 = "total_size" →
      isErr (ClientV1.AssetIndex.parse (.obj fs)) = true) ∧
    (∀ fs (kv : String × JValue), kv ∈ fs →
      kv.1 = "release_time" ∨ kv.1 = "compliance_level" →
      isErr (VersionManifestV2.Version.parse (.obj fs)) = true) ∧
    (∀ (comp : String) (mv : Int),
      ClientV1.JavaVersion.parse (.obj [("component", .str comp),
        ("majorVersion", .num mv)]) = .ok ⟨comp, mv⟩) := by
  refine ⟨by decide, ⟨rfl, by decide⟩,
    fun t => rfl, fun d => rfl, ?_, ?_, ?_, fun comp mv => rfl⟩
  · intro fs kv hm hk
    exact bind_isErr _ (checkStrict_err kv hm
      ((by decide : ∀ x ∈ ["asset_index", "compliance_level", "java_version",
        "main_class", "minecraft_arguments", "minimum_launcher_version",
        "release_time"], x ∉ ClientV1.keys) kv.1 hk))
  · intro fs kv hm hk
    exact bind_isErr _ (checkStrict_err kv hm (hk ▸ (by decide)))
  · intro fs kv hm hk
    rcases hk with he | he <;>
      exact bind_isErr _ (checkStrict_err kv hm (he ▸ (by decide)))

/-- Witness for C1: snake_case keys rejected where the alias differs. -/
theorem C1_wire_names_witness :
    isErr (ClientV1.parse (.obj [("asset_index", JValue.null)])) = true ∧
    isErr (ClientV1.AssetIndex.parse (.obj [("total_size", JValue.num 0)])) = true ∧
    isErr (VersionManifestV2.Version.parse
      (.obj [("compliance_level", JValue.num 1)])) = true :=
  ⟨C1_wire_names.2.2.2.2.1 [("asset_index", JValue.null)] ("asset_index", JValue.null)
      (List.Mem.head _) (by decide),
   C1_wire_names.2.2.2.2.2.1 [("total_size", JValue.num 0)] ("total_size", JValue.num 0)
      (List.Mem.head _) rfl,
   C1_wire_names.2.2.2.2.2.2.1 [("compliance_level", JValue.num 1)]
      ("compliance_level", JValue.num 1) (List.Mem.head _) (Or.inr rfl)⟩

end Metapiston
